import Mathlib

/-!
Shallow embedding of the client-side conversation cache
(src/unnamed/part_000, lines 14-450): key normalization, the IndexedDB
(structured) tier, the localStorage (flat) tier, lookup, write-through
with fallback, and the eviction sweeps.

JS strings are modelled as Lean `String`; `Date.now()` as an explicit
`now : Nat` (epoch milliseconds); the IndexedDB database as a list of
records keyed by `cacheKey`; localStorage as an association list from
string keys to stored blobs.  Injected platform failures (IndexedDB open
failures, IndexedDB get/put request errors, localStorage quota and other
setItem exceptions) are supplied by explicit queues inside the state; an
exhausted queue means the platform operation succeeds, which models the
failure-free run.
-/

namespace ConvCache

/-- ASCII whitespace recognised by the model of JS `String.prototype.trim`. -/
def isJsWs (c : Char) : Bool :=
  c == ' ' || c == '\t' || c == '\n' || c == '\r'

/-- The character-list operation behind the model of JS `trim()`. -/
def jsTrimL (l : List Char) : List Char :=
  ((l.dropWhile isJsWs).reverse.dropWhile isJsWs).reverse

/-- Model of the JS `trim()`: drop whitespace from both ends. -/
def jsTrim (s : String) : String :=
  ⟨jsTrimL s.data⟩

/-- Model of `s.split('T')[0]`: the characters before the first `'T'`. -/
def beforeT (s : String) : String :=
  ⟨s.data.takeWhile (fun c => !(c == 'T'))⟩

/-- Model of `s.includes('T')`. -/
def includesT (s : String) : Bool :=
  s.data.any (fun c => c == 'T')

/-- The date-normalisation done by `getConversationCacheKey` for string
dates (part_000 lines 30-34): trim, then cut at the first `'T'` when one
is present. -/
def normDateStr (d : String) : String :=
  let t := jsTrim d
  if includesT t then beforeT t else t

/-- A JS value passed as the `date` argument: absent/undefined, a string,
or a `Date` object (carried as its `toISOString()` rendering). -/
inductive DateLike where
  | absent
  | str (s : String)
  | jsDate (iso : String)
deriving DecidableEq

/-- JS truthiness of the `date` argument (`if (date)`). -/
def DateLike.truthy : DateLike → Bool
  | .absent => false
  | .str s => !(s == "")
  | .jsDate _ => true

/-- Model of `String(date)` for the record's denormalised `date` field
(diagnostic only; for `Date` objects the model keeps the ISO rendering). -/
def DateLike.toJsString : DateLike → String
  | .absent => ""
  | .str s => s
  | .jsDate iso => iso

/-- `getConversationCacheKey` (part_000 lines 24-40): trim the owner id,
normalise the date to its `YYYY-MM-DD` part, join with an underscore. -/
def getConversationCacheKey (adminId : String) (date : DateLike) : String :=
  let normalizedAdminId := jsTrim adminId
  let normalizedDate :=
    match date with
    | .absent => ""
    | .str s => if s == "" then "" else normDateStr s
    | .jsDate iso => beforeT iso
  normalizedAdminId ++ "_" ++ normalizedDate

/-- The cached payload (the record's `data` field): either a null/absent
value or an object with an optional `conversations` list (items carried
in already-serialized form) and auxiliary numeric counters. -/
inductive Data where
  | null
  | obj (conversations : Option (List String)) (aux : List (String × Nat))
deriving DecidableEq

/-- JS truthiness of a payload value (`!data`, `!cachedData.data`). -/
def Data.truthy : Data → Bool
  | .null => false
  | .obj _ _ => true

/-- `data.conversations?.length || 0`. -/
def Data.convCount : Data → Nat
  | .null => 0
  | .obj none _ => 0
  | .obj (some l) _ => l.length

/-- Comma-separated join, as in JSON array/object bodies. -/
def joinComma : List String → String
  | [] => ""
  | [s] => s
  | s :: rest => s ++ "," ++ joinComma rest

/-- One auxiliary counter field of the serialized payload. -/
def auxField : String × Nat → String
  | (k, v) => "\"" ++ k ++ "\":" ++ toString v

/-- Model of `JSON.stringify(data)`. -/
def Data.stringify : Data → String
  | .null => "null"
  | .obj none aux => "\x7b" ++ joinComma (aux.map auxField) ++ "\x7d"
  | .obj (some l) aux =>
      "\x7b" ++
        joinComma (("\"conversations\":[" ++ joinComma l ++ "]") :: aux.map auxField) ++
        "\x7d"

/-- The persisted cache record (`cacheData`, part_000 lines 230-238). -/
structure CacheData where
  cacheKey : String
  adminId : String
  date : String
  data : Data
  timestamp : Nat
  expiresAt : Nat
  conversationCount : Nat
deriving DecidableEq

/-- Model of `JSON.stringify(cacheData)`. -/
def CacheData.stringify (c : CacheData) : String :=
  "\x7b\"cacheKey\":\"" ++ c.cacheKey ++ "\",\"adminId\":\"" ++ c.adminId ++
    "\",\"date\":\"" ++ c.date ++ "\",\"data\":" ++ c.data.stringify ++
    ",\"timestamp\":" ++ toString c.timestamp ++ ",\"expiresAt\":" ++
    toString c.expiresAt ++ ",\"conversationCount\":" ++
    toString c.conversationCount ++ "\x7d"

/-- `CACHE_EXPIRY_HOURS` (part_000 line 15). -/
def CACHE_EXPIRY_HOURS : Nat := 24

/-- `CONVERSATION_CACHE_PREFIX` (part_000 line 14), the key head put in
front of localStorage keys. -/
def LS_KEY_HEAD : String := "admin_conversations_cache_"

/-- The legacy key head recognised by the flat-tier sweep (line 405). -/
def LEGACY_KEY_HEAD : String := "conversations_cache_"

/-- The record built by `cacheConversations` at time `now` (lines
228-238); `expiresAt` is `Date.now() + 24 * 60 * 60 * 1000`. -/
def mkCacheData (now : Nat) (adminId : String) (date : DateLike) (data : Data) : CacheData :=
  { cacheKey := getConversationCacheKey adminId date
    adminId := adminId
    date := date.toJsString
    data := data
    timestamp := now
    expiresAt := now + CACHE_EXPIRY_HOURS * 60 * 60 * 1000
    conversationCount := data.convCount }

/-- A string stored in localStorage: either the JSON of a cache record
(kept in parsed form, since `JSON.parse` after `JSON.stringify` is the
identity on these records) or some other string that does not parse as a
record. -/
inductive Blob where
  | record (c : CacheData)
  | raw (s : String)
deriving DecidableEq

/-- The stored string itself. -/
def Blob.toStr : Blob → String
  | .record c => c.stringify
  | .raw s => s

/-- `JSON.parse` of the stored string, as a record when it is one. -/
def Blob.toRec : Blob → Option CacheData
  | .record c => some c
  | .raw _ => none

/-- Outcome of one `localStorage.setItem` call: success, a
`QuotaExceededError` throw, or any other throw. -/
inductive PutOutcome where
  | ok
  | quota
  | other
deriving DecidableEq

/-- Observable storage-tier calls, used to state which tier was touched. -/
inductive Event where
  | openAttempt
  | idbGet
  | idbPut
  | idbDelete
  | idbSweep
  | lsSweep
  | lsSet
deriving DecidableEq

/-- Whether an event is a call into the structured (IndexedDB) tier. -/
def Event.isStructured : Event → Bool
  | .openAttempt => true
  | .idbGet => true
  | .idbPut => true
  | .idbDelete => true
  | .idbSweep => true
  | _ => false

/-- Request-error injections for the structured tier: whether the next
IndexedDB `get` request fires `onerror`, and likewise for `put`. -/
structure Env where
  idbGetFails : Bool
  idbPutFails : Bool
deriving DecidableEq

/-- The environment with no injected request errors. -/
def Env.clean : Env := ⟨false, false⟩

/-- Whole-cache state: the platform support flag (`INDEXEDDB_AVAILABLE`,
fixed for the session), whether `dbInstance` holds the opened handle, the
IndexedDB contents, the localStorage contents, and the injected outcomes
of future open attempts and `setItem` calls (an exhausted queue means the
operation succeeds). -/
structure St where
  available : Bool
  handleCached : Bool
  idb : List CacheData
  ls : List (String × Blob)
  openResults : List Bool
  putResults : List PutOutcome
deriving DecidableEq

/-- `localStorage.getItem`. -/
def lsGet (ls : List (String × Blob)) (k : String) : Option Blob :=
  (ls.find? (fun kv => kv.1 == k)).map (·.2)

/-- `localStorage.setItem`: overwrite the key if present, append it
otherwise. -/
def lsSet (ls : List (String × Blob)) (k : String) (b : Blob) : List (String × Blob) :=
  if ls.any (fun kv => kv.1 == k) then
    ls.map (fun kv => if kv.1 == k then (k, b) else kv)
  else ls ++ [(k, b)]

/-- `localStorage.removeItem`. -/
def lsRemove (ls : List (String × Blob)) (k : String) : List (String × Blob) :=
  ls.filter (fun kv => !(kv.1 == k))

/-- IndexedDB point lookup by primary key. -/
def idbFind (idb : List CacheData) (k : String) : Option CacheData :=
  idb.find? (fun r => r.cacheKey == k)

/-- IndexedDB `put`: upsert by `cacheKey`. -/
def idbPut (idb : List CacheData) (c : CacheData) : List CacheData :=
  if idb.any (fun r => r.cacheKey == c.cacheKey) then
    idb.map (fun r => if r.cacheKey == c.cacheKey then c else r)
  else idb ++ [c]

/-- IndexedDB `delete` by primary key. -/
def idbDeleteKey (idb : List CacheData) (k : String) : List CacheData :=
  idb.filter (fun r => !(r.cacheKey == k))

/-- `getConversationCacheDB` (lines 84-100): no store when the platform
lacks IndexedDB; the cached handle when one was opened before; otherwise
one open attempt whose outcome is drawn from `openResults` (an empty
queue models a platform whose open succeeds).  A failed open leaves
`dbInstance` unset, so the next call attempts the open again. -/
def getConversationCacheDB (s : St) : Bool × St × List Event :=
  if !s.available then (false, s, [])
  else if s.handleCached then (true, s, [])
  else
    match s.openResults with
    | [] => (true, { s with handleCached := true }, [.openAttempt])
    | ok :: rest =>
        if ok then (true, { s with handleCached := true, openResults := rest }, [.openAttempt])
        else (false, { s with openResults := rest }, [.openAttempt])

/-- `deleteCachedConversation` (lines 197-215): delete from IndexedDB
when a handle is obtainable, and always remove the localStorage copy
stored under the prefixed key. -/
def deleteCachedConversation (s : St) (cacheKey : String) : St × List Event :=
  let r1 := getConversationCacheDB s
  let s1 := r1.2.1
  let s2 :=
    if r1.1 then { s1 with idb := idbDeleteKey s1.idb cacheKey } else s1
  let t2 : List Event := if r1.1 then [.idbDelete] else []
  ({ s2 with ls := lsRemove s2.ls (LS_KEY_HEAD ++ cacheKey) }, r1.2.2 ++ t2)

/-- The localStorage fallback block of `getCachedConversations`
(lines 159-193): absence or a parse failure is a miss; an expired record
(`expiresAt` truthy and strictly in the past) is removed and a miss; a
record with a falsy `data` field is removed and a miss; otherwise the
payload is returned. -/
def lookupLocalStorage (now : Nat) (s : St) (cacheKey : String) : Option Data × St :=
  let localStorageKey := LS_KEY_HEAD ++ cacheKey
  match lsGet s.ls localStorageKey with
  | none => (none, s)
  | some blob =>
      match blob.toRec with
      | none => (none, s)
      | some parsed =>
          if parsed.expiresAt ≠ 0 ∧ now > parsed.expiresAt then
            (none, { s with ls := lsRemove s.ls localStorageKey })
          else if !parsed.data.truthy then
            (none, { s with ls := lsRemove s.ls localStorageKey })
          else (some parsed.data, s)

/-- `getCachedConversations` (lines 103-194).  With an open handle the
structured tier alone is consulted: a request error or a missing key
resolves to `null` without touching the flat tier, and expired or
payload-less records are purged and reported as misses.  Only when no
handle is obtained does the flat tier serve the lookup.  (The source's
catch-based fall-through to localStorage is unreachable for a live
handle because a throw inside the promise executor rejects the promise
instead of reaching the catch, so it is not modelled.) -/
def getCachedConversations (env : Env) (now : Nat) (s : St) (adminId : String)
    (date : DateLike) : Option Data × St × List Event :=
  let cacheKey := getConversationCacheKey adminId date
  let r1 := getConversationCacheDB s
  let s1 := r1.2.1
  let t1 := r1.2.2
  if r1.1 then
    if env.idbGetFails then (none, s1, t1 ++ [.idbGet])
    else
      match idbFind s1.idb cacheKey with
      | none => (none, s1, t1 ++ [.idbGet])
      | some cachedData =>
          if cachedData.expiresAt ≠ 0 ∧ now > cachedData.expiresAt then
            let r2 := deleteCachedConversation s1 cacheKey
            (none, r2.1, t1 ++ [.idbGet] ++ r2.2)
          else if !cachedData.data.truthy then
            let r2 := deleteCachedConversation s1 cacheKey
            (none, r2.1, t1 ++ [.idbGet] ++ r2.2)
          else (some cachedData.data, s1, t1 ++ [.idbGet])
  else
    let r2 := lookupLocalStorage now s1 cacheKey
    (r2.1, r2.2, t1)

/-- Write-time-descending order used by the eviction sweeps (the
`timestamp` index cursor in `'prev'` direction, and the flat tier's
`(a, b) => b.timestamp - a.timestamp` comparator). -/
def tsGeRec (a b : CacheData) : Prop := b.timestamp ≤ a.timestamp

instance : DecidableRel tsGeRec := fun a b => Nat.decLe b.timestamp a.timestamp

instance : IsTotal CacheData tsGeRec :=
  ⟨fun a b => (Nat.le_total a.timestamp b.timestamp).symm⟩

instance : IsTrans CacheData tsGeRec :=
  ⟨fun _ _ _ h1 h2 => Nat.le_trans h2 h1⟩

/-- The structured tier's records enumerated newest-first. -/
def sortRecsDesc (l : List CacheData) : List CacheData :=
  List.insertionSort tsGeRec l

/-- One row of the flat-tier sweep's accounting (key, write time,
serialized size). -/
structure LsMeta where
  key : String
  timestamp : Nat
  size : Nat
deriving DecidableEq

/-- Whether a localStorage key belongs to this subsystem (current key
head, or the recognised legacy one). -/
def isCacheLsKey (k : String) : Bool :=
  k.startsWith LS_KEY_HEAD || k.startsWith LEGACY_KEY_HEAD

/-- The accounting row for one localStorage entry (lines 416-429): parse
for the write time and take the blob's byte size, or zeros when the entry
does not parse as a record. -/
def lsMetaOf (kv : String × Blob) : LsMeta :=
  match kv.2.toRec with
  | some parsed => ⟨kv.1, parsed.timestamp, kv.2.toStr.utf8ByteSize⟩
  | none => ⟨kv.1, 0, 0⟩

/-- Write-time-descending order on the flat-tier accounting rows. -/
def tsGeMeta (a b : LsMeta) : Prop := b.timestamp ≤ a.timestamp

instance : DecidableRel tsGeMeta := fun a b => Nat.decLe b.timestamp a.timestamp

instance : IsTotal LsMeta tsGeMeta :=
  ⟨fun a b => (Nat.le_total a.timestamp b.timestamp).symm⟩

instance : IsTrans LsMeta tsGeMeta :=
  ⟨fun _ _ _ h1 h2 => Nat.le_trans h2 h1⟩

/-- The flat tier's accounting rows sorted newest-first. -/
def sortMetasDesc (l : List LsMeta) : List LsMeta :=
  List.insertionSort tsGeMeta l

/-- The structured-tier part of `clearOldCacheEntries` (lines 329-394):
enumerate the records newest-first, delete everything beyond the newest
50, and when the cumulative `JSON.stringify` length of all records
exceeds 500 MiB delete everything beyond the newest 30 as well. -/
def idbSweep (idb : List CacheData) : List CacheData :=
  let entries : List CacheData := sortRecsDesc idb
  let totalSize : Nat := (entries.map (fun e => e.stringify.length)).sum
  let idb2 :=
    if entries.length > 50 then
      (entries.drop 50).foldl (fun acc e => idbDeleteKey acc e.cacheKey) idb
    else idb
  if totalSize > 500 * 1024 * 1024 ∧ entries.length > 30 then
    (entries.drop 30).foldl (fun acc e => idbDeleteKey acc e.cacheKey) idb2
  else idb2

/-- The flat-tier part of `clearOldCacheEntries` (lines 400-450): the
entries under the subsystem's key heads (current or legacy) are
enumerated, sorted newest-first (parse failures counting as write time 0
and size 0), and everything beyond the newest 5 is removed. -/
def lsSweepLS (ls : List (String × Blob)) : List (String × Blob) :=
  let cacheEntries := sortMetasDesc ((ls.filter (fun kv => isCacheLsKey kv.1)).map lsMetaOf)
  if cacheEntries.isEmpty then ls
  else if cacheEntries.length > 5 then
    (cacheEntries.drop 5).foldl (fun acc m => lsRemove acc m.key) ls
  else ls

/-- `clearOldCacheEntries` (lines 323-450): with an open handle the
structured tier is swept and the flat tier is not touched (the source's
catch-based fall-through to the localStorage cleanup is unreachable for
a live handle); without a handle the flat tier is swept. -/
def clearOldCacheEntries (s : St) : St × List Event :=
  let r1 := getConversationCacheDB s
  let s1 := r1.2.1
  let t1 := r1.2.2
  if r1.1 then ({ s1 with idb := idbSweep s1.idb }, t1 ++ [.idbSweep])
  else ({ s1 with ls := lsSweepLS s1.ls }, t1 ++ [.lsSweep])

/-- Pop the outcome of the next `setItem` call; an exhausted queue means
the call succeeds. -/
def popPut (s : St) : PutOutcome × St :=
  match s.putResults with
  | [] => (.ok, s)
  | o :: rest => (o, { s with putResults := rest })

/-- `cacheToLocalStorage` (lines 274-320): serialized forms over 2 MiB
are rejected before any write is attempted; otherwise the write is
attempted, and on a quota-exceeded throw `clearOldCacheEntries` runs and
the identical write is attempted exactly once more, a second failure
being final; any other throw is final immediately.  (The source's
read-back verification always succeeds in the model, since `setItem`
stores synchronously.) -/
def cacheToLocalStorage (s : St) (cacheKey : String) (cacheData : CacheData) :
    Bool × St × List Event :=
  let localStorageKey := LS_KEY_HEAD ++ cacheKey
  if cacheData.stringify.length > 2 * 1024 * 1024 then (false, s, [])
  else
    let p1 := popPut s
    let s1 := p1.2
    match p1.1 with
    | .ok => (true, { s1 with ls := lsSet s1.ls localStorageKey (.record cacheData) }, [.lsSet])
    | .other => (false, s1, [.lsSet])
    | .quota =>
        let r2 := clearOldCacheEntries s1
        let p2 := popPut r2.1
        let s3 := p2.2
        match p2.1 with
        | .ok =>
            (true, { s3 with ls := lsSet s3.ls localStorageKey (.record cacheData) },
              [Event.lsSet] ++ r2.2 ++ [Event.lsSet])
        | _ => (false, s3, [Event.lsSet] ++ r2.2 ++ [Event.lsSet])

/-- `cacheConversations` (lines 218-271): a missing owner id, date or
payload is rejected up front; otherwise the record is built at `now` and
written to the structured tier when a handle is obtainable (falling back
to the flat tier when the put request errors), or directly to the flat
tier when no handle is obtained. -/
def cacheConversations (env : Env) (now : Nat) (s : St) (adminId : String)
    (date : DateLike) (data : Data) : Bool × St × List Event :=
  if adminId == "" || !date.truthy || !data.truthy then (false, s, [])
  else
    let cacheKey := getConversationCacheKey adminId date
    let cacheData := mkCacheData now adminId date data
    let r1 := getConversationCacheDB s
    let s1 := r1.2.1
    let t1 := r1.2.2
    if r1.1 then
      if env.idbPutFails then
        let r2 := cacheToLocalStorage s1 cacheKey cacheData
        (r2.1, r2.2.1, t1 ++ [.idbPut] ++ r2.2.2)
      else (true, { s1 with idb := idbPut s1.idb cacheData }, t1 ++ [.idbPut])
    else
      let r2 := cacheToLocalStorage s1 cacheKey cacheData
      (r2.1, r2.2.1, t1 ++ r2.2.2)

/-! ### Concrete states used by the counterexamples -/

/-- A record whose payload object is present but lacks the
`conversations` list field. -/
def recNoList : CacheData :=
  { cacheKey := "a_2024-01-01"
    adminId := "a"
    date := "2024-01-01"
    data := Data.obj none []
    timestamp := 100
    expiresAt := 999999
    conversationCount := 0 }

/-- A session with an open structured handle whose store holds only
`recNoList`. -/
def stC2 : St :=
  { available := true, handleCached := true, idb := [recNoList], ls := []
    openResults := [], putResults := [] }

/-- A fresh, valid record for the key `"a_2024-01-01"`. -/
def recValid : CacheData :=
  { cacheKey := "a_2024-01-01"
    adminId := "a"
    date := "2024-01-01"
    data := Data.obj (some ["x"]) []
    timestamp := 100
    expiresAt := 999999
    conversationCount := 1 }

/-- A session with an open structured handle whose store misses the key,
while the flat tier holds a fresh valid record for it. -/
def stC3 : St :=
  { available := true, handleCached := true, idb := []
    ls := [(LS_KEY_HEAD ++ "a_2024-01-01", Blob.record recValid)]
    openResults := [], putResults := [] }

/-- A session on a platform with IndexedDB whose first open attempt
fails and whose second open attempt succeeds; the database holds a fresh
valid record. -/
def stC5 : St :=
  { available := true, handleCached := false, idb := [recValid], ls := []
    openResults := [false, true], putResults := [] }

/-- Six old flat-tier entries under the subsystem's key head, written at
times 1..6. -/
def lsSix : List (String × Blob) :=
  [ (LS_KEY_HEAD ++ "a_2024-01-01", Blob.record { recValid with timestamp := 1 })
  , (LS_KEY_HEAD ++ "a_2024-01-02", Blob.record { recValid with timestamp := 2 })
  , (LS_KEY_HEAD ++ "a_2024-01-03", Blob.record { recValid with timestamp := 3 })
  , (LS_KEY_HEAD ++ "a_2024-01-04", Blob.record { recValid with timestamp := 4 })
  , (LS_KEY_HEAD ++ "a_2024-01-05", Blob.record { recValid with timestamp := 5 })
  , (LS_KEY_HEAD ++ "a_2024-01-06", Blob.record { recValid with timestamp := 6 }) ]

/-- A session with an open structured handle, six old flat-tier entries,
and a localStorage whose next `setItem` throws quota-exceeded while the
retry succeeds. -/
def stC4 : St :=
  { available := true, handleCached := true, idb := [], ls := lsSix
    openResults := [], putResults := [PutOutcome.quota, PutOutcome.ok] }

/-- A small fresh record to be written during the C4 scenario. -/
def recNew : CacheData := mkCacheData 100 "a" (DateLike.str "2024-02-01")
  (Data.obj (some ["y"]) [])

/-- A flat-only session whose first `setItem` throws quota-exceeded and
whose retry throws a non-quota error, with six old entries present. -/
def stC4b : St :=
  { available := false, handleCached := false, idb := [], ls := lsSix
    openResults := [], putResults := [PutOutcome.quota, PutOutcome.other] }

/-- A single oversized serialized item (2.1 million characters). -/
def bigItem : String := ⟨List.replicate 2100000 'a'⟩

/-- A record whose serialized form exceeds the flat tier's 2 MiB
per-entry ceiling. -/
def recBig : CacheData :=
  { cacheKey := "a_2024-01-01"
    adminId := "a"
    date := "2024-01-01"
    data := Data.obj (some [bigItem]) []
    timestamp := 100
    expiresAt := 999999
    conversationCount := 1 }

/-- A flat-only session with one pending non-quota `setItem` failure. -/
def stC9 : St :=
  { available := false, handleCached := false, idb := [], ls := []
    openResults := [], putResults := [PutOutcome.other] }

/-- Sixty structured-tier records with pairwise-distinct keys, write
times 0..59 and small serialized forms. -/
def idb60 : List CacheData :=
  (List.range 60).map (fun i =>
    { cacheKey := "k" ++ toString i
      adminId := "a"
      date := "d"
      data := Data.obj (some []) []
      timestamp := i
      expiresAt := 0
      conversationCount := 0 })

/-- Eight flat-tier entries under the current key head with
pairwise-distinct keys and write times 0..7. -/
def ls8 : List (String × Blob) :=
  (List.range 8).map (fun i =>
    (LS_KEY_HEAD ++ "k" ++ toString i,
     Blob.record
       { cacheKey := "k" ++ toString i
         adminId := "a"
         date := "d"
         data := Data.obj (some []) []
         timestamp := i
         expiresAt := 0
         conversationCount := 0 }))

/-! ### Helper lemmas about the key normalizer -/

theorem dropWhile_head_clean {α : Type} (p : α → Bool) (l : List α) :
    ∀ c, (l.dropWhile p).head? = some c → p c = false := by
  induction l with
  | nil => intro c hc; simp [List.dropWhile] at hc
  | cons a l ih =>
    intro c hc
    by_cases hpa : p a
    · rw [List.dropWhile_cons_of_pos hpa] at hc
      exact ih c hc
    · rw [List.dropWhile_cons_of_neg hpa] at hc
      simp at hc
      subst hc
      simpa using hpa

theorem dropWhile_eq_self_of_head {α : Type} (p : α → Bool) (l : List α)
    (h : ∀ c, l.head? = some c → p c = false) : l.dropWhile p = l := by
  cases l with
  | nil => rfl
  | cons a l =>
    have ha := h a rfl
    exact List.dropWhile_cons_of_neg (by simp [ha])

theorem dropWhile_dropWhile {α : Type} (p : α → Bool) (l : List α) :
    (l.dropWhile p).dropWhile p = l.dropWhile p :=
  dropWhile_eq_self_of_head p _ (dropWhile_head_clean p l)

theorem head?_of_prefix {α : Type} {l₁ l₂ : List α} (h : l₁ <+: l₂) {c : α}
    (hc : l₁.head? = some c) : l₂.head? = some c := by
  rcases h with ⟨t, rfl⟩
  cases l₁ with
  | nil => simp at hc
  | cons a l => simpa using hc

theorem jsTrimL_idem (l : List Char) : jsTrimL (jsTrimL l) = jsTrimL l := by
  unfold jsTrimL
  set q := (l.dropWhile isJsWs).reverse.dropWhile isJsWs with hqdef
  have hstep1 : q.reverse.dropWhile isJsWs = q.reverse := by
    apply dropWhile_eq_self_of_head
    intro c hc
    have hpre : q.reverse <+: l.dropWhile isJsWs := by
      rw [← List.reverse_reverse (l.dropWhile isJsWs)]
      apply List.reverse_prefix.mpr
      exact List.dropWhile_suffix isJsWs
    have : (l.dropWhile isJsWs).head? = some c := head?_of_prefix hpre hc
    exact dropWhile_head_clean isJsWs l c this
  rw [hstep1, List.reverse_reverse, hqdef, dropWhile_dropWhile]

theorem jsTrim_idem (s : String) : jsTrim (jsTrim s) = jsTrim s :=
  congrArg String.mk (jsTrimL_idem s.data)

theorem mem_takeWhile_mem {α : Type} {p : α → Bool} {l : List α} {c : α}
    (h : c ∈ l.takeWhile p) : c ∈ l :=
  (List.takeWhile_sublist p).subset h

/-- A string none of whose characters is whitespace. -/
def noWs (s : String) : Prop := ∀ c ∈ s.data, isJsWs c = false

instance (s : String) : Decidable (noWs s) := by
  unfold noWs; infer_instance

theorem jsTrimL_eq_self {l : List Char} (h : ∀ c ∈ l, isJsWs c = false) :
    jsTrimL l = l := by
  unfold jsTrimL
  have h1 : l.dropWhile isJsWs = l := by
    apply dropWhile_eq_self_of_head
    intro c hc
    have hmem : c ∈ l := by
      cases l with
      | nil => simp at hc
      | cons a t =>
          simp only [List.head?_cons, Option.some.injEq] at hc
          rw [← hc]
          exact List.mem_cons_self a t
    exact h c hmem
  rw [h1]
  have h2 : l.reverse.dropWhile isJsWs = l.reverse := by
    apply dropWhile_eq_self_of_head
    intro c hc
    have hmem : c ∈ l.reverse := by
      cases hr : l.reverse with
      | nil => rw [hr] at hc; simp at hc
      | cons a t =>
          rw [hr] at hc
          simp only [List.head?_cons, Option.some.injEq] at hc
          rw [← hc]
          exact List.mem_cons_self a t
    exact h c (List.mem_reverse.mp hmem)
  rw [h2, List.reverse_reverse]

theorem jsTrim_eq_self {s : String} (h : noWs s) : jsTrim s = s := by
  rcases s with ⟨l⟩
  exact congrArg String.mk (jsTrimL_eq_self h)

/-- Unfolding equation for `normDateStr` without the intermediate let. -/
theorem normDateStr_eq (d : String) :
    normDateStr d = if includesT (jsTrim d) then beforeT (jsTrim d) else jsTrim d := rfl

theorem normDateStr_noT (d : String) (h : noWs d) :
    noWs (normDateStr d) ∧ includesT (normDateStr d) = false := by
  rw [normDateStr_eq, jsTrim_eq_self h]
  by_cases hT : includesT d
  · simp only [hT, if_true]
    constructor
    · intro c hc
      exact h c (mem_takeWhile_mem hc)
    · unfold includesT beforeT
      simp only [Bool.eq_false_iff]
      intro hany
      rw [List.any_eq_true] at hany
      rcases hany with ⟨c, hc, hceq⟩
      have hmem := List.mem_takeWhile_imp hc
      simp at hmem hceq
      exact hmem hceq
  · have hT2 : includesT d = false := by simpa using hT
    rw [if_neg (by simp [hT2])]
    exact ⟨h, hT2⟩

theorem normDateStr_stable (d : String) (hw : noWs d) (hT : includesT d = false) :
    normDateStr d = d := by
  rw [normDateStr_eq, jsTrim_eq_self hw, hT]
  simp

theorem normDateStr_idem (d : String) (h : noWs d) :
    normDateStr (normDateStr d) = normDateStr d := by
  rcases normDateStr_noT d h with ⟨h1, h2⟩
  exact normDateStr_stable _ h1 h2

theorem normDateStr_empty : normDateStr "" = "" := rfl

/-! ### Claim theorems -/

/-- Claim C1 is stated below; first the claims about the key normalizer.

Claim C10: key normalization is deterministic (it is a pure function of
its arguments) and idempotent for valid `(ownerId, date)` pairs — a
date string is taken as valid when it contains no whitespace characters,
which covers both `YYYY-MM-DD` and ISO date-time strings — in the sense
that re-normalizing the normalized owner and date components reproduces
the canonical key; and the dates `"2024-03-05T10:00:00Z"` and
`"2024-03-05"` normalize to identical keys for every owner. -/
theorem cacheKey_str_eq (a s : String) :
    getConversationCacheKey a (DateLike.str s) =
      jsTrim a ++ "_" ++ (if s == "" then "" else normDateStr s) := rfl

theorem cacheKey_normalization_c10 :
    (∀ (a d : String), noWs d →
      getConversationCacheKey (jsTrim a) (DateLike.str (normDateStr d)) =
        getConversationCacheKey a (DateLike.str d)) ∧
    (∀ a : String,
      getConversationCacheKey a (DateLike.str "2024-03-05T10:00:00Z") =
        getConversationCacheKey a (DateLike.str "2024-03-05")) := by
  constructor
  · intro a d hd
    rw [cacheKey_str_eq, cacheKey_str_eq, jsTrim_idem]
    by_cases hde : d = ""
    · subst hde
      simp [normDateStr_empty]
    · by_cases hne : normDateStr d = ""
      · rw [hne]
        have hdb : (d == "") = false := by simp [hde]
        simp [hdb, hne]
      · have h1 : (normDateStr d == "") = false := by simp [hne]
        have h2 : (d == "") = false := by simp [hde]
        simp only [h1, h2, Bool.false_eq_true, if_false]
        rw [normDateStr_idem d hd]
  · intro a
    rw [cacheKey_str_eq, cacheKey_str_eq]
    have h12 : (if ("2024-03-05T10:00:00Z" : String) == "" then ("" : String)
        else normDateStr "2024-03-05T10:00:00Z") =
        (if ("2024-03-05" : String) == "" then ("" : String)
        else normDateStr "2024-03-05") := by
      decide
    rw [h12]

/-- Witness for C10: re-normalizing the normalized components of
`(" bob ", "2024-03-05T10:00:00Z")` reproduces the canonical key. -/
theorem cacheKey_normalization_c10_witness :
    getConversationCacheKey (jsTrim " bob ")
        (DateLike.str (normDateStr "2024-03-05T10:00:00Z")) =
      getConversationCacheKey " bob " (DateLike.str "2024-03-05T10:00:00Z") :=
  cacheKey_normalization_c10.1 " bob " "2024-03-05T10:00:00Z" (by decide)

/-! ### Branch characterisations of the cache operations -/

section SymbolicProofs

attribute [local irreducible] CacheData.stringify

theorem getDB_unavail {s : St} (h : s.available = false) :
    getConversationCacheDB s = (false, s, []) := by
  unfold getConversationCacheDB
  rw [h]
  simp

theorem getDB_cached {s : St} (ha : s.available = true) (hc : s.handleCached = true) :
    getConversationCacheDB s = (true, s, []) := by
  unfold getConversationCacheDB
  rw [ha, hc]
  simp

theorem getDB_openFail {s : St} {rest : List Bool} (ha : s.available = true)
    (hc : s.handleCached = false) (ho : s.openResults = false :: rest) :
    getConversationCacheDB s = (false, { s with openResults := rest }, [Event.openAttempt]) := by
  unfold getConversationCacheDB
  rw [ha, hc, ho]
  rfl

theorem getDB_openOk {s : St} {rest : List Bool} (ha : s.available = true)
    (hc : s.handleCached = false) (ho : s.openResults = true :: rest) :
    getConversationCacheDB s =
      (true, { s with handleCached := true, openResults := rest }, [Event.openAttempt]) := by
  unfold getConversationCacheDB
  rw [ha, hc, ho]
  rfl

theorem getDB_openDefault {s : St} (ha : s.available = true)
    (hc : s.handleCached = false) (ho : s.openResults = []) :
    getConversationCacheDB s =
      (true, { s with handleCached := true }, [Event.openAttempt]) := by
  unfold getConversationCacheDB
  rw [ha, hc, ho]
  rfl

theorem clearOld_cached {s : St} (ha : s.available = true) (hc : s.handleCached = true) :
    clearOldCacheEntries s = ({ s with idb := idbSweep s.idb }, [Event.idbSweep]) := by
  unfold clearOldCacheEntries
  rw [getDB_cached ha hc]
  rfl

theorem clearOld_unavail {s : St} (ha : s.available = false) :
    clearOldCacheEntries s = ({ s with ls := lsSweepLS s.ls }, [Event.lsSweep]) := by
  unfold clearOldCacheEntries
  rw [getDB_unavail ha]
  rfl

theorem lookup_unavail {env : Env} {now : Nat} {s : St} {adminId : String}
    {date : DateLike} (ha : s.available = false) :
    getCachedConversations env now s adminId date =
      ((lookupLocalStorage now s (getConversationCacheKey adminId date)).1,
        (lookupLocalStorage now s (getConversationCacheKey adminId date)).2, []) := by
  unfold getCachedConversations
  rw [getDB_unavail ha]
  rfl

theorem lookup_openFail {env : Env} {now : Nat} {s : St} {adminId : String}
    {date : DateLike} {rest : List Bool} (ha : s.available = true)
    (hc : s.handleCached = false) (ho : s.openResults = false :: rest) :
    getCachedConversations env now s adminId date =
      ((lookupLocalStorage now { s with openResults := rest }
          (getConversationCacheKey adminId date)).1,
        (lookupLocalStorage now { s with openResults := rest }
          (getConversationCacheKey adminId date)).2, [Event.openAttempt]) := by
  unfold getCachedConversations
  rw [getDB_openFail ha hc ho]
  rfl

theorem lookup_cached_miss {env : Env} {now : Nat} {s : St} {adminId : String}
    {date : DateLike} (ha : s.available = true) (hc : s.handleCached = true)
    (henv : env.idbGetFails = false)
    (hfind : idbFind s.idb (getConversationCacheKey adminId date) = none) :
    getCachedConversations env now s adminId date = (none, s, [Event.idbGet]) := by
  unfold getCachedConversations
  rw [getDB_cached ha hc, henv]
  simp only [hfind]
  rfl

theorem lookup_cached_getfail {env : Env} {now : Nat} {s : St} {adminId : String}
    {date : DateLike} (ha : s.available = true) (hc : s.handleCached = true)
    (henv : env.idbGetFails = true) :
    getCachedConversations env now s adminId date = (none, s, [Event.idbGet]) := by
  unfold getCachedConversations
  rw [getDB_cached ha hc, henv]
  rfl

theorem cacheConv_invalid {env : Env} {now : Nat} {s : St} {adminId : String}
    {date : DateLike} {data : Data}
    (hval : (adminId == "" || !date.truthy || !data.truthy) = true) :
    cacheConversations env now s adminId date data = (false, s, []) := by
  unfold cacheConversations
  rw [hval]
  rfl

theorem cacheConv_unavail {env : Env} {now : Nat} {s : St} {adminId : String}
    {date : DateLike} {data : Data} (ha : s.available = false)
    (hval : (adminId == "" || !date.truthy || !data.truthy) = false) :
    cacheConversations env now s adminId date data =
      ((cacheToLocalStorage s (getConversationCacheKey adminId date)
          (mkCacheData now adminId date data)).1,
        (cacheToLocalStorage s (getConversationCacheKey adminId date)
          (mkCacheData now adminId date data)).2.1,
        (cacheToLocalStorage s (getConversationCacheKey adminId date)
          (mkCacheData now adminId date data)).2.2) := by
  unfold cacheConversations
  rw [hval, getDB_unavail ha]
  rfl

theorem cacheConv_cached_ok {env : Env} {now : Nat} {s : St} {adminId : String}
    {date : DateLike} {data : Data} (ha : s.available = true)
    (hc : s.handleCached = true) (henv : env.idbPutFails = false)
    (hval : (adminId == "" || !date.truthy || !data.truthy) = false) :
    cacheConversations env now s adminId date data =
      (true, { s with idb := idbPut s.idb (mkCacheData now adminId date data) },
        [Event.idbPut]) := by
  unfold cacheConversations
  rw [hval, getDB_cached ha hc, henv]
  rfl

theorem idbFind_deleteKey (l : List CacheData) (k : String) :
    idbFind (idbDeleteKey l k) k = none := by
  unfold idbFind idbDeleteKey
  induction l with
  | nil => rfl
  | cons a t ih =>
      by_cases h : a.cacheKey == k
      · simp only [List.filter_cons, h, Bool.not_true, Bool.false_eq_true, if_false]
        exact ih
      · have h2 : (!(a.cacheKey == k)) = true := by simp [h]
        simp only [List.filter_cons, h2, if_true]
        rw [List.find?_cons_of_neg _ (by simp [h])]
        exact ih

theorem lsGet_lsRemove (ls : List (String × Blob)) (k : String) :
    lsGet (lsRemove ls k) k = none := by
  unfold lsGet lsRemove
  have hnone : (List.filter (fun kv => !(kv.1 == k)) ls).find? (fun kv => kv.1 == k) =
      none := by
    rw [List.find?_eq_none]
    intro kv hkv
    have hmem := List.of_mem_filter hkv
    simpa using hmem
  rw [hnone]
  rfl

theorem deleteCached_cached {s : St} (ha : s.available = true)
    (hc : s.handleCached = true) (k : String) :
    deleteCachedConversation s k =
      ({ s with idb := idbDeleteKey s.idb k, ls := lsRemove s.ls (LS_KEY_HEAD ++ k) },
        [Event.idbDelete]) := by
  unfold deleteCachedConversation
  rw [getDB_cached ha hc]
  rfl


/-- Claim C2 (amended): on lookup in either tier, the validity check
only requires the record's payload field to be present (truthy): a
record persisted with a null/absent payload is always reported as a miss
and purged, so it is absent from that tier afterwards; the presence of a
list field inside the payload is not checked, and a record whose payload
lacks the list field is served as a hit (see the counterexample). -/
theorem corruption_c2_amended (now : Nat) (s : St) (adminId : String)
    (date : DateLike) (r : CacheData) :
    (s.available = true → s.handleCached = true →
      idbFind s.idb (getConversationCacheKey adminId date) = some r →
      r.data = Data.null →
      (getCachedConversations Env.clean now s adminId date).1 = none ∧
        idbFind (getCachedConversations Env.clean now s adminId date).2.1.idb
          (getConversationCacheKey adminId date) = none) ∧
    (s.available = false →
      lsGet s.ls (LS_KEY_HEAD ++ getConversationCacheKey adminId date) =
        some (Blob.record r) →
      r.data = Data.null →
      (getCachedConversations Env.clean now s adminId date).1 = none ∧
        lsGet (getCachedConversations Env.clean now s adminId date).2.1.ls
          (LS_KEY_HEAD ++ getConversationCacheKey adminId date) = none) := by
  constructor
  · intro ha hc hfind hdata
    have hdb := getDB_cached ha hc
    have htr : r.data.truthy = false := by rw [hdata]; rfl
    by_cases hexp : r.expiresAt ≠ 0 ∧ now > r.expiresAt
    · simp [getCachedConversations, hdb, Env.clean, hfind, hexp,
        deleteCached_cached ha hc, idbFind_deleteKey]
    · simp [getCachedConversations, hdb, Env.clean, hfind, hexp, htr,
        deleteCached_cached ha hc, idbFind_deleteKey]
  · intro ha hls hdata
    have hdb := getDB_unavail ha
    have htr : r.data.truthy = false := by rw [hdata]; rfl
    by_cases hexp : r.expiresAt ≠ 0 ∧ now > r.expiresAt
    · simp [getCachedConversations, hdb, lookupLocalStorage, hls, Blob.toRec,
        hexp, lsGet_lsRemove]
    · simp [getCachedConversations, hdb, lookupLocalStorage, hls, Blob.toRec,
        hexp, htr, lsGet_lsRemove]


/-- Claim C3 (amended): the flat tier is attempted, with the same expiry
and structural checks, exactly when the structured tier yields no handle
(platform unsupported, or this call's open attempt failed); when the
structured tier is open, a per-key miss or an asynchronous read error is
reported as absent immediately, without consulting the flat tier and
leaving the state unchanged. -/
theorem fallback_c3_amended (env : Env) (now : Nat) (s : St) (adminId : String)
    (date : DateLike) :
    (s.available = false →
      getCachedConversations env now s adminId date =
        ((lookupLocalStorage now s (getConversationCacheKey adminId date)).1,
          (lookupLocalStorage now s (getConversationCacheKey adminId date)).2, [])) ∧
    (∀ rest : List Bool, s.available = true → s.handleCached = false →
      s.openResults = false :: rest →
      getCachedConversations env now s adminId date =
        ((lookupLocalStorage now { s with openResults := rest }
            (getConversationCacheKey adminId date)).1,
          (lookupLocalStorage now { s with openResults := rest }
            (getConversationCacheKey adminId date)).2, [Event.openAttempt])) ∧
    (s.available = true → s.handleCached = true → env.idbGetFails = false →
      idbFind s.idb (getConversationCacheKey adminId date) = none →
      getCachedConversations env now s adminId date = (none, s, [Event.idbGet])) ∧
    (s.available = true → s.handleCached = true → env.idbGetFails = true →
      getCachedConversations env now s adminId date = (none, s, [Event.idbGet])) := by
  refine ⟨?_, ?_, ?_, ?_⟩
  · intro ha
    simp [getCachedConversations, getDB_unavail ha]
  · intro rest ha hc ho
    simp [getCachedConversations, getDB_openFail ha hc ho]
  · intro ha hc henv hfind
    simp [getCachedConversations, getDB_cached ha hc, henv, hfind]
  · intro ha hc henv
    simp [getCachedConversations, getDB_cached ha hc, henv]


theorem cacheToLS_trace_flat {s : St} (ha : s.available = false) (k : String)
    (c : CacheData) :
    (cacheToLocalStorage s k c).2.2.all (fun e => !e.isStructured) = true := by
  unfold cacheToLocalStorage
  by_cases hsize : c.stringify.length > 2 * 1024 * 1024
  · simp [hsize]
  · cases hp : s.putResults with
    | nil => simp [hsize, popPut, hp, Event.isStructured]
    | cons o rest =>
        cases o with
        | ok => simp [hsize, popPut, hp, Event.isStructured]
        | other => simp [hsize, popPut, hp, Event.isStructured]
        | quota =>
            have ha2 : ({ s with putResults := rest } : St).available = false := ha
            cases rest with
            | nil =>
                simp [hsize, popPut, hp, clearOld_unavail ha2, Event.isStructured]
            | cons o2 r2 =>
                cases o2 <;>
                  simp [hsize, popPut, hp, clearOld_unavail ha2, Event.isStructured]


/-- Claim C5 (amended): when the platform lacks IndexedDB, lookups and
stores make no structured-tier call at all (they operate on the flat
tier alone, for the whole session since the support flag is fixed); the
open handle is cached after the first successful open and later calls
reuse it without re-opening; but after a failed open attempt the next
call re-attempts the open (and succeeds when the platform then opens
normally), so a failed open is not a permanent downgrade. -/
theorem unavailability_c5_amended (env : Env) (now : Nat) (s : St) (adminId : String)
    (date : DateLike) (data : Data) :
    (s.available = false →
      (getCachedConversations env now s adminId date).2.2.all
          (fun e => !e.isStructured) = true ∧
        (cacheConversations env now s adminId date data).2.2.all
          (fun e => !e.isStructured) = true) ∧
    (s.available = true → s.handleCached = true →
      getConversationCacheDB s = (true, s, [])) ∧
    (∀ rest : List Bool, s.available = true → s.handleCached = false →
      s.openResults = false :: rest →
      getConversationCacheDB s =
          (false, { s with openResults := rest }, [Event.openAttempt]) ∧
        (rest = [] →
          getConversationCacheDB { s with openResults := rest } =
            (true, { s with handleCached := true, openResults := [] },
              [Event.openAttempt]))) := by
  refine ⟨?_, ?_, ?_⟩
  · intro ha
    constructor
    · rw [lookup_unavail ha]
      rfl
    · by_cases hval : (adminId == "" || !date.truthy || !data.truthy) = true
      · rw [cacheConv_invalid hval]
        rfl
      · have hv2 : (adminId == "" || !date.truthy || !data.truthy) = false := by
          simpa using hval
        rw [cacheConv_unavail ha hv2]
        exact cacheToLS_trace_flat ha (getConversationCacheKey adminId date)
          (mkCacheData now adminId date data)
  · intro ha hc
    exact getDB_cached ha hc
  · intro rest ha hc ho
    refine ⟨getDB_openFail ha hc ho, ?_⟩
    intro hrest
    subst hrest
    exact getDB_openDefault ha hc rfl

theorem popPut_nil {s : St} (h : s.putResults = []) : popPut s = (PutOutcome.ok, s) := by
  unfold popPut
  rw [h]

theorem popPut_cons {s : St} {o : PutOutcome} {rest : List PutOutcome}
    (h : s.putResults = o :: rest) :
    popPut s = (o, { s with putResults := rest }) := by
  unfold popPut
  rw [h]

theorem find?_map_upsert (l : List CacheData) (c : CacheData)
    (h : l.any (fun r => r.cacheKey == c.cacheKey) = true) :
    (l.map (fun r => if r.cacheKey == c.cacheKey then c else r)).find?
      (fun r => r.cacheKey == c.cacheKey) = some c := by
  induction l with
  | nil => simp at h
  | cons a t ih =>
      simp only [List.map_cons]
      by_cases ha2 : (a.cacheKey == c.cacheKey) = true
      · rw [if_pos ha2, List.find?_cons_of_pos _ (by simp)]
      · have ht : t.any (fun r => r.cacheKey == c.cacheKey) = true := by
          simpa [ha2] using h
        rw [if_neg ha2, List.find?_cons_of_neg _ (by simpa using ha2)]
        exact ih ht

theorem find?_append_new (l : List CacheData) (c : CacheData)
    (h : l.any (fun r => r.cacheKey == c.cacheKey) = false) :
    (l ++ [c]).find? (fun r => r.cacheKey == c.cacheKey) = some c := by
  induction l with
  | nil =>
      rw [List.nil_append, List.find?_cons_of_pos _ (by simp)]
  | cons a t ih =>
      have ha2 : (a.cacheKey == c.cacheKey) = false := by
        have h2 := List.any_eq_false.mp h a (by simp)
        simpa using h2
      have ht : t.any (fun r => r.cacheKey == c.cacheKey) = false := by
        rw [List.any_eq_false]
        intro x hx
        exact List.any_eq_false.mp h x (by simp [hx])
      rw [List.cons_append, List.find?_cons_of_neg _ (by simp [ha2])]
      exact ih ht

theorem idbFind_idbPut (l : List CacheData) (c : CacheData) :
    idbFind (idbPut l c) c.cacheKey = some c := by
  unfold idbFind idbPut
  by_cases h : l.any (fun r => r.cacheKey == c.cacheKey) = true
  · rw [if_pos h]
    exact find?_map_upsert l c h
  · have h2 : l.any (fun r => r.cacheKey == c.cacheKey) = false := Bool.eq_false_iff.mpr h
    rw [if_neg h]
    exact find?_append_new l c h2

theorem find?_map_upsertPair (ls : List (String × Blob)) (k : String) (b : Blob)
    (h : ls.any (fun kv => kv.1 == k) = true) :
    (ls.map (fun kv => if kv.1 == k then (k, b) else kv)).find? (fun kv => kv.1 == k) =
      some (k, b) := by
  induction ls with
  | nil => simp at h
  | cons a t ih =>
      simp only [List.map_cons]
      by_cases ha2 : (a.1 == k) = true
      · rw [if_pos ha2, List.find?_cons_of_pos _ (by simp)]
      · have ht : t.any (fun kv => kv.1 == k) = true := by simpa [ha2] using h
        rw [if_neg ha2, List.find?_cons_of_neg _ (by simpa using ha2)]
        exact ih ht

theorem find?_append_newPair (ls : List (String × Blob)) (k : String) (b : Blob)
    (h : ls.any (fun kv => kv.1 == k) = false) :
    (ls ++ [(k, b)]).find? (fun kv => kv.1 == k) = some (k, b) := by
  induction ls with
  | nil =>
      rw [List.nil_append, List.find?_cons_of_pos _ (by simp)]
  | cons a t ih =>
      have ha2 : (a.1 == k) = false := by
        have h2 := List.any_eq_false.mp h a (by simp)
        simpa using h2
      have ht : t.any (fun kv => kv.1 == k) = false := by
        rw [List.any_eq_false]
        intro x hx
        exact List.any_eq_false.mp h x (by simp [hx])
      rw [List.cons_append, List.find?_cons_of_neg _ (by simp [ha2])]
      exact ih ht

theorem lsGet_lsSet (ls : List (String × Blob)) (k : String) (b : Blob) :
    lsGet (lsSet ls k b) k = some b := by
  unfold lsGet lsSet
  by_cases h : ls.any (fun kv => kv.1 == k) = true
  · rw [if_pos h, find?_map_upsertPair ls k b h]
    rfl
  · have h2 : ls.any (fun kv => kv.1 == k) = false := Bool.eq_false_iff.mpr h
    rw [if_neg h, find?_append_newPair ls k b h2]
    rfl

theorem cacheToLS_ok {s : St} {k : String} {c : CacheData}
    (hsize : ¬(c.stringify.length > 2 * 1024 * 1024)) (hp : s.putResults = []) :
    cacheToLocalStorage s k c =
      (true, { s with ls := lsSet s.ls (LS_KEY_HEAD ++ k) (Blob.record c) },
        [Event.lsSet]) := by
  unfold cacheToLocalStorage
  rw [if_neg hsize]
  simp only [popPut_nil hp]

theorem cacheConv_openDefault {env : Env} {now : Nat} {s : St} {adminId : String}
    {date : DateLike} {data : Data} (ha : s.available = true)
    (hc : s.handleCached = false) (ho : s.openResults = [])
    (henv : env.idbPutFails = false)
    (hval : (adminId == "" || !date.truthy || !data.truthy) = false) :
    cacheConversations env now s adminId date data =
      (true,
        { s with
            handleCached := true
            idb := idbPut s.idb (mkCacheData now adminId date data) },
        [Event.openAttempt, Event.idbPut]) := by
  unfold cacheConversations
  rw [hval, getDB_openDefault ha hc ho, henv]
  rfl

theorem cacheConv_unavail_ok {env : Env} {now : Nat} {s : St} {adminId : String}
    {date : DateLike} {data : Data} (ha : s.available = false)
    (hval : (adminId == "" || !date.truthy || !data.truthy) = false)
    (hsize : ¬((mkCacheData now adminId date data).stringify.length > 2 * 1024 * 1024))
    (hp : s.putResults = []) :
    cacheConversations env now s adminId date data =
      (true,
        { s with
            ls := lsSet s.ls (LS_KEY_HEAD ++ getConversationCacheKey adminId date)
              (Blob.record (mkCacheData now adminId date data)) },
        [Event.lsSet]) := by
  unfold cacheConversations
  rw [hval, getDB_unavail ha]
  simp only [cacheToLS_ok hsize hp, List.nil_append]
  rfl

theorem lookup_cached_found (now : Nat) (s : St) (adminId : String)
    (date : DateLike) (r : CacheData) (ha : s.available = true)
    (hc : s.handleCached = true)
    (hfind : idbFind s.idb (getConversationCacheKey adminId date) = some r)
    (hexp : ¬(r.expiresAt ≠ 0 ∧ now > r.expiresAt)) (htr : r.data.truthy = true) :
    getCachedConversations Env.clean now s adminId date =
      (some r.data, s, [Event.idbGet]) := by
  unfold getCachedConversations
  rw [getDB_cached ha hc]
  simp only [hfind]
  rw [if_neg hexp]
  simp only [htr]
  rfl

theorem lookup_cached_expired (now : Nat) (s : St) (adminId : String)
    (date : DateLike) (r : CacheData) (ha : s.available = true)
    (hc : s.handleCached = true)
    (hfind : idbFind s.idb (getConversationCacheKey adminId date) = some r)
    (hexp : r.expiresAt ≠ 0 ∧ now > r.expiresAt) :
    getCachedConversations Env.clean now s adminId date =
      (none,
        { s with
            idb := idbDeleteKey s.idb (getConversationCacheKey adminId date)
            ls := lsRemove s.ls (LS_KEY_HEAD ++ getConversationCacheKey adminId date) },
        [Event.idbGet, Event.idbDelete]) := by
  unfold getCachedConversations
  rw [getDB_cached ha hc]
  simp only [hfind]
  rw [if_pos hexp]
  simp only [deleteCached_cached ha hc]
  rfl

theorem lookup_unavail_found (now : Nat) (s : St) (adminId : String)
    (date : DateLike) (r : CacheData) (ha : s.available = false)
    (hls : lsGet s.ls (LS_KEY_HEAD ++ getConversationCacheKey adminId date) =
      some (Blob.record r))
    (hexp : ¬(r.expiresAt ≠ 0 ∧ now > r.expiresAt)) (htr : r.data.truthy = true) :
    getCachedConversations Env.clean now s adminId date = (some r.data, s, []) := by
  unfold getCachedConversations
  rw [getDB_unavail ha]
  unfold lookupLocalStorage
  simp only [hls, Blob.toRec]
  rw [if_neg hexp]
  simp only [htr]
  rfl

theorem lookup_unavail_expired (now : Nat) (s : St) (adminId : String)
    (date : DateLike) (r : CacheData) (ha : s.available = false)
    (hls : lsGet s.ls (LS_KEY_HEAD ++ getConversationCacheKey adminId date) =
      some (Blob.record r))
    (hexp : r.expiresAt ≠ 0 ∧ now > r.expiresAt) :
    getCachedConversations Env.clean now s adminId date =
      (none,
        { s with ls := lsRemove s.ls (LS_KEY_HEAD ++ getConversationCacheKey adminId date) },
        []) := by
  unfold getCachedConversations
  rw [getDB_unavail ha]
  unfold lookupLocalStorage
  simp only [hls, Blob.toRec]
  rw [if_pos hexp]
  rfl

/-- Claim C1: for every owner, date and payload that passes structural
validation (a payload object containing the conversations list) and
whose serialized record is under the per-entry size ceiling, in a
session with no injected storage failures (open attempts and `setItem`
calls succeed), `store` reports success and an immediate `lookup` of the
same owner and date returns a payload structurally equal to the stored
one — via the structured tier when the platform supports it, via the
flat tier otherwise. -/
theorem roundtrip_c1 (now : Nat) (s : St) (adminId : String) (date : DateLike)
    (items : List String) (aux : List (String × Nat)) (hA : adminId ≠ "")
    (hD : date.truthy = true) (ho : s.openResults = []) (hp : s.putResults = [])
    (hsize : ¬((mkCacheData now adminId date (Data.obj (some items) aux)).stringify.length >
      2 * 1024 * 1024)) :
    (cacheConversations Env.clean now s adminId date (Data.obj (some items) aux)).1 =
        true ∧
      (getCachedConversations Env.clean now
          (cacheConversations Env.clean now s adminId date
            (Data.obj (some items) aux)).2.1 adminId date).1 =
        some (Data.obj (some items) aux) := by
  have h1 : (adminId == "") = false := by simp [hA]
  have hval : (adminId == "" || !date.truthy ||
      !(Data.obj (some items) aux).truthy) = false := by
    rw [h1, hD]
    rfl
  have hexp : ¬((mkCacheData now adminId date (Data.obj (some items) aux)).expiresAt ≠ 0 ∧
      now > (mkCacheData now adminId date (Data.obj (some items) aux)).expiresAt) := by
    rintro ⟨_, h2⟩
    have he : (mkCacheData now adminId date (Data.obj (some items) aux)).expiresAt =
        now + 24 * 60 * 60 * 1000 := rfl
    omega
  by_cases ha : s.available = true
  · by_cases hc : s.handleCached = true
    · refine ⟨?_, ?_⟩
      · rw [@cacheConv_cached_ok Env.clean now s adminId date (Data.obj (some items) aux) ha hc rfl hval]
      · simp only [@cacheConv_cached_ok Env.clean now s adminId date (Data.obj (some items) aux) ha hc rfl hval]
        rw [lookup_cached_found now
          { s with idb := idbPut s.idb (mkCacheData now adminId date (Data.obj (some items) aux)) }
          adminId date (mkCacheData now adminId date (Data.obj (some items) aux)) ha hc
          (idbFind_idbPut s.idb (mkCacheData now adminId date (Data.obj (some items) aux))) hexp rfl]
        rfl
    · have hc2 : s.handleCached = false := Bool.eq_false_iff.mpr hc
      refine ⟨?_, ?_⟩
      · rw [@cacheConv_openDefault Env.clean now s adminId date (Data.obj (some items) aux) ha hc2 ho rfl hval]
      · simp only [@cacheConv_openDefault Env.clean now s adminId date (Data.obj (some items) aux) ha hc2 ho rfl hval]
        rw [lookup_cached_found now
          { s with
              handleCached := true
              idb := idbPut s.idb (mkCacheData now adminId date (Data.obj (some items) aux)) }
          adminId date (mkCacheData now adminId date (Data.obj (some items) aux)) ha rfl
          (idbFind_idbPut s.idb (mkCacheData now adminId date (Data.obj (some items) aux))) hexp rfl]
        rfl
  · have ha2 : s.available = false := Bool.eq_false_iff.mpr ha
    refine ⟨?_, ?_⟩
    · rw [cacheConv_unavail_ok ha2 hval hsize hp]
    · simp only [cacheConv_unavail_ok ha2 hval hsize hp]
      rw [lookup_unavail_found now
        { s with
            ls := lsSet s.ls (LS_KEY_HEAD ++ getConversationCacheKey adminId date)
              (Blob.record (mkCacheData now adminId date (Data.obj (some items) aux))) }
        adminId date (mkCacheData now adminId date (Data.obj (some items) aux)) ha2
        (lsGet_lsSet s.ls (LS_KEY_HEAD ++ getConversationCacheKey adminId date)
          (Blob.record (mkCacheData now adminId date (Data.obj (some items) aux))))
        hexp rfl]
      rfl

/-- Claim C6: every record created by a successful put at time `T` has
`expiresAt = writtenAt + 24h` with no sliding expiration, and on lookup
the record is a hit at `T + 23h59m` and a miss at `T + 24h01m`, with the
record purged from the tier it was stored in. -/
theorem expiry_c6 (T : Nat) (s : St) (adminId : String) (date : DateLike)
    (items : List String) (aux : List (String × Nat)) (hA : adminId ≠ "")
    (hD : date.truthy = true) (ho : s.openResults = []) (hp : s.putResults = [])
    (hsize : ¬((mkCacheData T adminId date (Data.obj (some items) aux)).stringify.length >
      2 * 1024 * 1024)) :
    (mkCacheData T adminId date (Data.obj (some items) aux)).expiresAt =
        (mkCacheData T adminId date (Data.obj (some items) aux)).timestamp +
          CACHE_EXPIRY_HOURS * 60 * 60 * 1000 ∧
      (getCachedConversations Env.clean (T + 86340000)
          (cacheConversations Env.clean T s adminId date
            (Data.obj (some items) aux)).2.1 adminId date).1 =
        some (Data.obj (some items) aux) ∧
      (getCachedConversations Env.clean (T + 86460000)
          (cacheConversations Env.clean T s adminId date
            (Data.obj (some items) aux)).2.1 adminId date).1 = none ∧
      (s.available = true →
        idbFind (getCachedConversations Env.clean (T + 86460000)
            (cacheConversations Env.clean T s adminId date
              (Data.obj (some items) aux)).2.1 adminId date).2.1.idb
          (getConversationCacheKey adminId date) = none) ∧
      (s.available = false →
        lsGet (getCachedConversations Env.clean (T + 86460000)
            (cacheConversations Env.clean T s adminId date
              (Data.obj (some items) aux)).2.1 adminId date).2.1.ls
          (LS_KEY_HEAD ++ getConversationCacheKey adminId date) = none) := by
  have h1 : (adminId == "") = false := by simp [hA]
  have hval : (adminId == "" || !date.truthy ||
      !(Data.obj (some items) aux).truthy) = false := by
    rw [h1, hD]
    rfl
  have he : (mkCacheData T adminId date (Data.obj (some items) aux)).expiresAt =
      T + 24 * 60 * 60 * 1000 := rfl
  have hexpHit : ¬((mkCacheData T adminId date (Data.obj (some items) aux)).expiresAt ≠ 0 ∧
      T + 86340000 > (mkCacheData T adminId date (Data.obj (some items) aux)).expiresAt) := by
    rintro ⟨_, h2⟩
    omega
  have hexpMiss : (mkCacheData T adminId date (Data.obj (some items) aux)).expiresAt ≠ 0 ∧
      T + 86460000 > (mkCacheData T adminId date (Data.obj (some items) aux)).expiresAt := by
    refine ⟨?_, ?_⟩
    · omega
    · omega
  refine ⟨rfl, ?_⟩
  by_cases ha : s.available = true
  · by_cases hc : s.handleCached = true
    · refine ⟨?_, ?_, ?_, ?_⟩
      · simp only [@cacheConv_cached_ok Env.clean T s adminId date (Data.obj (some items) aux) ha hc rfl hval]
        rw [lookup_cached_found (T + 86340000)
          { s with idb := idbPut s.idb (mkCacheData T adminId date (Data.obj (some items) aux)) }
          adminId date (mkCacheData T adminId date (Data.obj (some items) aux)) ha hc
          (idbFind_idbPut s.idb (mkCacheData T adminId date (Data.obj (some items) aux))) hexpHit rfl]
        rfl
      · simp only [@cacheConv_cached_ok Env.clean T s adminId date (Data.obj (some items) aux) ha hc rfl hval]
        rw [lookup_cached_expired (T + 86460000)
          { s with idb := idbPut s.idb (mkCacheData T adminId date (Data.obj (some items) aux)) }
          adminId date (mkCacheData T adminId date (Data.obj (some items) aux)) ha hc
          (idbFind_idbPut s.idb (mkCacheData T adminId date (Data.obj (some items) aux))) hexpMiss]
      · intro _
        simp only [@cacheConv_cached_ok Env.clean T s adminId date (Data.obj (some items) aux) ha hc rfl hval]
        rw [lookup_cached_expired (T + 86460000)
          { s with idb := idbPut s.idb (mkCacheData T adminId date (Data.obj (some items) aux)) }
          adminId date (mkCacheData T adminId date (Data.obj (some items) aux)) ha hc
          (idbFind_idbPut s.idb (mkCacheData T adminId date (Data.obj (some items) aux))) hexpMiss]
        exact idbFind_deleteKey _ _
      · intro hfalse
        simp [ha] at hfalse
    · have hc2 : s.handleCached = false := Bool.eq_false_iff.mpr hc
      refine ⟨?_, ?_, ?_, ?_⟩
      · simp only [@cacheConv_openDefault Env.clean T s adminId date (Data.obj (some items) aux) ha hc2 ho rfl hval]
        rw [lookup_cached_found (T + 86340000)
          { s with
              handleCached := true
              idb := idbPut s.idb (mkCacheData T adminId date (Data.obj (some items) aux)) }
          adminId date (mkCacheData T adminId date (Data.obj (some items) aux)) ha rfl
          (idbFind_idbPut s.idb (mkCacheData T adminId date (Data.obj (some items) aux))) hexpHit rfl]
        rfl
      · simp only [@cacheConv_openDefault Env.clean T s adminId date (Data.obj (some items) aux) ha hc2 ho rfl hval]
        rw [lookup_cached_expired (T + 86460000)
          { s with
              handleCached := true
              idb := idbPut s.idb (mkCacheData T adminId date (Data.obj (some items) aux)) }
          adminId date (mkCacheData T adminId date (Data.obj (some items) aux)) ha rfl
          (idbFind_idbPut s.idb (mkCacheData T adminId date (Data.obj (some items) aux))) hexpMiss]
      · intro _
        simp only [@cacheConv_openDefault Env.clean T s adminId date (Data.obj (some items) aux) ha hc2 ho rfl hval]
        rw [lookup_cached_expired (T + 86460000)
          { s with
              handleCached := true
              idb := idbPut s.idb (mkCacheData T adminId date (Data.obj (some items) aux)) }
          adminId date (mkCacheData T adminId date (Data.obj (some items) aux)) ha rfl
          (idbFind_idbPut s.idb (mkCacheData T adminId date (Data.obj (some items) aux))) hexpMiss]
        exact idbFind_deleteKey _ _
      · intro hfalse
        simp [ha] at hfalse
  · have ha2 : s.available = false := Bool.eq_false_iff.mpr ha
    refine ⟨?_, ?_, ?_, ?_⟩
    · simp only [cacheConv_unavail_ok ha2 hval hsize hp]
      rw [lookup_unavail_found (T + 86340000)
        { s with
            ls := lsSet s.ls (LS_KEY_HEAD ++ getConversationCacheKey adminId date)
              (Blob.record (mkCacheData T adminId date (Data.obj (some items) aux))) }
        adminId date (mkCacheData T adminId date (Data.obj (some items) aux)) ha2
        (lsGet_lsSet s.ls (LS_KEY_HEAD ++ getConversationCacheKey adminId date)
          (Blob.record (mkCacheData T adminId date (Data.obj (some items) aux))))
        hexpHit rfl]
      rfl
    · simp only [cacheConv_unavail_ok ha2 hval hsize hp]
      rw [lookup_unavail_expired (T + 86460000)
        { s with
            ls := lsSet s.ls (LS_KEY_HEAD ++ getConversationCacheKey adminId date)
              (Blob.record (mkCacheData T adminId date (Data.obj (some items) aux))) }
        adminId date (mkCacheData T adminId date (Data.obj (some items) aux)) ha2
        (lsGet_lsSet s.ls (LS_KEY_HEAD ++ getConversationCacheKey adminId date)
          (Blob.record (mkCacheData T adminId date (Data.obj (some items) aux))))
        hexpMiss]
    · intro hfalse
      simp [ha2] at hfalse
    · intro _
      simp only [cacheConv_unavail_ok ha2 hval hsize hp]
      rw [lookup_unavail_expired (T + 86460000)
        { s with
            ls := lsSet s.ls (LS_KEY_HEAD ++ getConversationCacheKey adminId date)
              (Blob.record (mkCacheData T adminId date (Data.obj (some items) aux))) }
        adminId date (mkCacheData T adminId date (Data.obj (some items) aux)) ha2
        (lsGet_lsSet s.ls (LS_KEY_HEAD ++ getConversationCacheKey adminId date)
          (Blob.record (mkCacheData T adminId date (Data.obj (some items) aux))))
        hexpMiss]
      exact lsGet_lsRemove _ _

/-- Claim C9: a payload whose serialized form exceeds the flat tier's
2 MiB per-entry ceiling is rejected before any write is attempted — the
write fails with no `setItem` call, no sweep, and an untouched state
(in particular it is not retried after a sweep) — whereas a generic
(non-quota) `setItem` failure does attempt the write first, so the
too-large outcome is observably distinct from a generic failure. -/
theorem oversize_c9 (s : St) (k : String) (c : CacheData) (rest : List PutOutcome) :
    (c.stringify.length > 2 * 1024 * 1024 →
      cacheToLocalStorage s k c = (false, s, [])) ∧
    (¬(c.stringify.length > 2 * 1024 * 1024) →
      s.putResults = PutOutcome.other :: rest →
      cacheToLocalStorage s k c =
        (false, { s with putResults := rest }, [Event.lsSet])) := by
  constructor
  · intro hsize
    unfold cacheToLocalStorage
    rw [if_pos hsize]
  · intro hsize hput
    unfold cacheToLocalStorage
    rw [if_neg hsize, popPut_cons hput]

/-- Claim C4 (amended): when a flat-tier `put` fails with the platform's
quota-exceeded error, the Cache Manager runs `clearOldCacheEntries` and
then attempts the identical put exactly once more, a second failure
(quota or otherwise) being final for this write with the write reported
as failed; however, the sweep that runs is the flat-tier eviction sweep
only when the structured handle is unavailable — when the structured
handle is open, the sweep clears the structured tier instead and the
flat tier is not swept before the retry (see the counterexample). -/
theorem quota_retry_c4_amended (s : St) (k : String) (c : CacheData) (o : PutOutcome)
    (rest : List PutOutcome) (hsize : ¬(c.stringify.length > 2 * 1024 * 1024))
    (hput : s.putResults = PutOutcome.quota :: o :: rest) :
    (s.available = false →
      cacheToLocalStorage s k c = ((o == PutOutcome.ok),
        if o == PutOutcome.ok then
          { s with
              putResults := rest
              ls := lsSet (lsSweepLS s.ls) (LS_KEY_HEAD ++ k) (Blob.record c) }
        else { s with putResults := rest, ls := lsSweepLS s.ls },
        [Event.lsSet, Event.lsSweep, Event.lsSet])) ∧
    (s.available = true → s.handleCached = true →
      cacheToLocalStorage s k c = ((o == PutOutcome.ok),
        if o == PutOutcome.ok then
          { s with
              putResults := rest
              idb := idbSweep s.idb
              ls := lsSet s.ls (LS_KEY_HEAD ++ k) (Blob.record c) }
        else { s with putResults := rest, idb := idbSweep s.idb },
        [Event.lsSet, Event.idbSweep, Event.lsSet])) := by
  constructor
  · intro ha
    unfold cacheToLocalStorage
    rw [if_neg hsize]
    simp only [popPut_cons hput,
      @clearOld_unavail { s with putResults := o :: rest } ha]
    cases o <;> rfl
  · intro ha hc
    unfold cacheToLocalStorage
    rw [if_neg hsize]
    simp only [popPut_cons hput,
      @clearOld_cached { s with putResults := o :: rest } ha hc]
    cases o <;> rfl

theorem foldl_idbDeleteKey (ks : List CacheData) (l : List CacheData) :
    ks.foldl (fun acc e => idbDeleteKey acc e.cacheKey) l =
      l.filter (fun r => !(ks.any (fun e => e.cacheKey == r.cacheKey))) := by
  induction ks generalizing l with
  | nil => simp
  | cons e ks ih =>
      rw [List.foldl_cons, ih]
      unfold idbDeleteKey
      rw [List.filter_filter]
      congr 1
      funext r
      by_cases h1 : (e.cacheKey == r.cacheKey) = true
      · have h1b : (r.cacheKey == e.cacheKey) = true := by
          rw [Bool.beq_comm]
          exact h1
        simp [h1, h1b]
      · have h1b : (r.cacheKey == e.cacheKey) = false := by
          rw [Bool.beq_comm]
          exact Bool.eq_false_iff.mpr h1
        simp [Bool.eq_false_iff.mpr h1, h1b]

theorem filter_key_drop_perm {α β : Type} [BEq β] [LawfulBEq β] (key : α → β)
    (E L : List α) (n : Nat) (hperm : E.Perm L) (hnodup : (L.map key).Nodup) :
    (L.filter (fun r => !((E.drop n).any (fun q => key q == key r)))).Perm
      (E.take n) := by
  set p : α → Bool := fun r => !((E.drop n).any (fun q => key q == key r)) with hpdef
  have hnodupE : (E.map key).Nodup := ((hperm.map key).nodup_iff).mpr hnodup
  have hsplit : (E.take n).map key ++ (E.drop n).map key = E.map key := by
    rw [← List.map_append, List.take_append_drop]
  have hdisj : ∀ a ∈ (E.take n).map key, a ∉ (E.drop n).map key := by
    have h2 : ((E.take n).map key ++ (E.drop n).map key).Nodup := by
      rw [hsplit]
      exact hnodupE
    have h3 := List.nodup_append.mp h2
    intro a ha hb
    exact h3.2.2 ha hb
  have hdropnil : (E.drop n).filter p = [] := by
    rw [List.filter_eq_nil_iff]
    intro q hq hp
    rw [hpdef] at hp
    simp only [Bool.not_eq_true'] at hp
    exact List.any_eq_false.mp hp q hq (by simp)
  have htake : (E.take n).filter p = E.take n := by
    rw [List.filter_eq_self]
    intro r hr
    have hfalse : (E.drop n).any (fun q => key q == key r) = false := by
      rw [List.any_eq_false]
      intro q hq hbeq
      have hkqr : key q = key r := by simpa using hbeq
      have hmem1 : key r ∈ (E.take n).map key := List.mem_map_of_mem key hr
      have hmem2 : key r ∈ (E.drop n).map key := by
        rw [← hkqr]
        exact List.mem_map_of_mem key hq
      exact hdisj _ hmem1 hmem2
    rw [hpdef]
    simp [hfalse]
  have hstep1 : (L.filter p).Perm (E.filter p) := (hperm.filter p).symm
  have hstep2 : E.filter p = E.take n := by
    have hsplit2 : E.filter p = (E.take n ++ E.drop n).filter p := by
      rw [List.take_append_drop]
    rw [hsplit2, List.filter_append, htake, hdropnil, List.append_nil]
  rw [← hstep2]
  exact hstep1

/-- The pointwise collapse of the two sweep filters: deleting the keys
beyond the newest 50 and then the keys beyond the newest 30 keeps
exactly the records whose key is within the newest 30. -/
theorem sweep_filter_collapse (l : List CacheData) (r : CacheData) :
    (!(((sortRecsDesc l).drop 30).any (fun e => e.cacheKey == r.cacheKey)) &&
      !(((sortRecsDesc l).drop 50).any (fun e => e.cacheKey == r.cacheKey))) =
      !(((sortRecsDesc l).drop 30).any (fun e => e.cacheKey == r.cacheKey)) := by
  by_cases h : ((sortRecsDesc l).drop 30).any (fun e => e.cacheKey == r.cacheKey) = true
  · rw [h]
    rfl
  · have h30 : ((sortRecsDesc l).drop 30).any (fun e => e.cacheKey == r.cacheKey) =
        false := Bool.eq_false_iff.mpr h
    have hsub : (sortRecsDesc l).drop 50 ⊆ (sortRecsDesc l).drop 30 := by
      have hdd : ((sortRecsDesc l).drop 30).drop 20 = (sortRecsDesc l).drop 50 := by
        rw [List.drop_drop]
      rw [← hdd]
      exact List.drop_subset 20 ((sortRecsDesc l).drop 30)
    have h50 : ((sortRecsDesc l).drop 50).any (fun e => e.cacheKey == r.cacheKey) =
        false := by
      rw [List.any_eq_false]
      intro q hq
      exact List.any_eq_false.mp h30 q (hsub hq)
    rw [h30, h50]
    rfl

/-- Claim C7: given pairwise-distinct keys, the structured-tier eviction
sweep retains exactly the newest (by write time) 50 records whenever the
cumulative serialized size of all records is at most 500 MiB — in
particular after inserting 60 distinct keys a sweep leaves exactly the
50 most-recently-written ones, every survivor being at least as recent
as every deleted record — and when the cumulative size exceeds 500 MiB
the retained set is tightened to the newest 30, so at most 30 records
remain. -/
theorem eviction_idb_c7 (l : List CacheData)
    (hkeys : (l.map CacheData.cacheKey).Nodup) :
    (¬(((sortRecsDesc l).map (fun e => e.stringify.length)).sum > 500 * 1024 * 1024) →
      (idbSweep l).Perm ((sortRecsDesc l).take 50) ∧
        (idbSweep l).length = min 50 l.length ∧
        ∀ r ∈ idbSweep l, ∀ q ∈ (sortRecsDesc l).drop 50, q.timestamp ≤ r.timestamp) ∧
    ((((sortRecsDesc l).map (fun e => e.stringify.length)).sum > 500 * 1024 * 1024) →
      (idbSweep l).Perm ((sortRecsDesc l).take 30) ∧ (idbSweep l).length ≤ 30) := by
  have hperm : (sortRecsDesc l).Perm l := List.perm_insertionSort tsGeRec l
  have hsorted : List.Sorted tsGeRec (sortRecsDesc l) := List.sorted_insertionSort tsGeRec l
  have hlen : (sortRecsDesc l).length = l.length := hperm.length_eq
  have hk50 := filter_key_drop_perm CacheData.cacheKey (sortRecsDesc l) l 50 hperm hkeys
  have hk30 := filter_key_drop_perm CacheData.cacheKey (sortRecsDesc l) l 30 hperm hkeys
  have hdom : ∀ r ∈ (sortRecsDesc l).take 50, ∀ q ∈ (sortRecsDesc l).drop 50,
      q.timestamp ≤ r.timestamp := by
    intro r hr q hq
    have hp : List.Pairwise tsGeRec ((sortRecsDesc l).take 50 ++ (sortRecsDesc l).drop 50) := by
      rw [List.take_append_drop]
      exact hsorted
    exact (List.pairwise_append.mp hp).2.2 r hr q hq
  constructor
  · intro hB
    by_cases h50 : (sortRecsDesc l).length > 50
    · have hswp : idbSweep l =
          l.filter (fun r =>
            !(((sortRecsDesc l).drop 50).any (fun e => e.cacheKey == r.cacheKey))) := by
        simp only [idbSweep]
        rw [if_pos h50, if_neg (by intro hx; exact hB hx.1), foldl_idbDeleteKey]
      rw [hswp]
      refine ⟨hk50, ?_, ?_⟩
      · rw [hk50.length_eq, List.length_take, hlen]
      · intro r hr q hq
        exact hdom r (hk50.mem_iff.mp hr) q hq
    · have h50b : (sortRecsDesc l).length ≤ 50 := Nat.le_of_not_lt h50
      have hswp : idbSweep l = l := by
        simp only [idbSweep]
        rw [if_neg h50, if_neg (by intro hx; exact hB hx.1)]
      have htk : (sortRecsDesc l).take 50 = sortRecsDesc l := List.take_of_length_le h50b
      rw [hswp, htk]
      refine ⟨hperm.symm, ?_, ?_⟩
      · have : min 50 l.length = l.length := by omega
        rw [this]
      · intro r hr q hq
        have hd : (sortRecsDesc l).drop 50 = [] := List.drop_eq_nil_of_le h50b
        rw [hd] at hq
        simp at hq
  · intro hB
    by_cases h30 : (sortRecsDesc l).length > 30
    · have hswp : idbSweep l =
          l.filter (fun r =>
            !(((sortRecsDesc l).drop 30).any (fun e => e.cacheKey == r.cacheKey))) := by
        simp only [idbSweep]
        by_cases h50 : (sortRecsDesc l).length > 50
        · rw [if_pos h50, if_pos ⟨hB, h30⟩, foldl_idbDeleteKey, foldl_idbDeleteKey,
            List.filter_filter]
          congr 1
          funext r
          exact sweep_filter_collapse l r
        · rw [if_neg h50, if_pos ⟨hB, h30⟩, foldl_idbDeleteKey]
      rw [hswp]
      refine ⟨hk30, ?_⟩
      rw [hk30.length_eq, List.length_take]
      omega
    · have h30b : (sortRecsDesc l).length ≤ 30 := Nat.le_of_not_lt h30
      have hswp : idbSweep l = l := by
        simp only [idbSweep]
        rw [if_neg (by omega : ¬(sortRecsDesc l).length > 50),
          if_neg (by intro hx; exact h30 hx.2)]
      have htk : (sortRecsDesc l).take 30 = sortRecsDesc l := List.take_of_length_le h30b
      rw [hswp, htk]
      exact ⟨hperm.symm, by omega⟩

theorem lsMetaOf_key (kv : String × Blob) : (lsMetaOf kv).key = kv.1 := by
  cases hkv : kv.2.toRec <;> simp [lsMetaOf, hkv]

theorem foldl_lsRemove (ms : List LsMeta) (ls : List (String × Blob)) :
    ms.foldl (fun acc m => lsRemove acc m.key) ls =
      ls.filter (fun kv => !(ms.any (fun m => m.key == kv.1))) := by
  induction ms generalizing ls with
  | nil => simp
  | cons m ms ih =>
      rw [List.foldl_cons, ih]
      unfold lsRemove
      rw [List.filter_filter]
      congr 1
      funext kv
      by_cases h1 : (m.key == kv.1) = true
      · have h1b : (kv.1 == m.key) = true := by
          rw [Bool.beq_comm]
          exact h1
        simp [h1, h1b]
      · have h1b : (kv.1 == m.key) = false := by
          rw [Bool.beq_comm]
          exact Bool.eq_false_iff.mpr h1
        simp [Bool.eq_false_iff.mpr h1, h1b]

theorem any_map_general {α β : Type} (f : α → β) (l : List α) (p : β → Bool) :
    (l.map f).any p = l.any (fun a => p (f a)) := by
  induction l with
  | nil => rfl
  | cons a t ih => simp [List.any_cons, ih]

theorem filter_str_drop_perm (E L : List String) (n : Nat) (hperm : E.Perm L)
    (hnodup : L.Nodup) :
    (L.filter (fun r => !((E.drop n).any (fun q => q == r)))).Perm (E.take n) := by
  have h := filter_key_drop_perm (id : String → String) E L n hperm
    (by rw [List.map_id]; exact hnodup)
  exact h

theorem map_fst_filter_anykey (ms : List LsMeta) (pl : List (String × Blob)) :
    (pl.filter (fun kv => !(ms.any (fun m => m.key == kv.1)))).map Prod.fst =
      (pl.map Prod.fst).filter (fun k => !(ms.any (fun m => m.key == k))) := by
  induction pl with
  | nil => rfl
  | cons a t ih =>
      by_cases h : (ms.any (fun m => m.key == a.1)) = true
      · simp [List.filter_cons, h, ih]
      · simp [List.filter_cons, Bool.eq_false_iff.mpr h, ih]

set_option maxHeartbeats 1000000 in
set_option maxRecDepth 4096 in
/-- Claim C8: given pairwise-distinct keys, the flat-tier eviction sweep
leaves entries outside the subsystem's key heads (current or legacy)
untouched, and retains, among the subsystem's entries, exactly the keys
of the newest 5 accounting rows (write-time descending), each retained
row being at least as recent as each deleted one — so after storing 8
distinct subsystem keys a sweep leaves exactly the 5 most recently
written. -/
theorem eviction_ls_c8 (ls : List (String × Blob))
    (hkeys : (ls.map Prod.fst).Nodup) :
    ((lsSweepLS ls).filter (fun kv => !(isCacheLsKey kv.1)) =
        ls.filter (fun kv => !(isCacheLsKey kv.1))) ∧
    (((lsSweepLS ls).filter (fun kv => isCacheLsKey kv.1)).map Prod.fst).Perm
        (((sortMetasDesc ((ls.filter (fun kv => isCacheLsKey kv.1)).map lsMetaOf)).take 5).map
          LsMeta.key) ∧
    ((lsSweepLS ls).filter (fun kv => isCacheLsKey kv.1)).length =
        min 5 (ls.filter (fun kv => isCacheLsKey kv.1)).length ∧
    ∀ m1 ∈ (sortMetasDesc ((ls.filter (fun kv => isCacheLsKey kv.1)).map lsMetaOf)).take 5,
      ∀ m2 ∈ (sortMetasDesc ((ls.filter (fun kv => isCacheLsKey kv.1)).map lsMetaOf)).drop 5,
        m2.timestamp ≤ m1.timestamp := by
  have hplnodup : ((ls.filter (fun kv => isCacheLsKey kv.1)).map Prod.fst).Nodup :=
    hkeys.sublist ((List.filter_sublist ls).map Prod.fst)
  have hm : (sortMetasDesc ((ls.filter (fun kv => isCacheLsKey kv.1)).map lsMetaOf)).Perm
      ((ls.filter (fun kv => isCacheLsKey kv.1)).map lsMetaOf) :=
    List.perm_insertionSort tsGeMeta _
  have hmsorted : List.Sorted tsGeMeta
      (sortMetasDesc ((ls.filter (fun kv => isCacheLsKey kv.1)).map lsMetaOf)) :=
    List.sorted_insertionSort tsGeMeta _
  have hdom : ∀ m1 ∈ (sortMetasDesc ((ls.filter (fun kv => isCacheLsKey kv.1)).map lsMetaOf)).take 5,
      ∀ m2 ∈ (sortMetasDesc ((ls.filter (fun kv => isCacheLsKey kv.1)).map lsMetaOf)).drop 5,
        m2.timestamp ≤ m1.timestamp := by
    intro m1 h1 m2 h2
    have hp : List.Pairwise tsGeMeta
        ((sortMetasDesc ((ls.filter (fun kv => isCacheLsKey kv.1)).map lsMetaOf)).take 5 ++
          (sortMetasDesc ((ls.filter (fun kv => isCacheLsKey kv.1)).map lsMetaOf)).drop 5) := by
      rw [List.take_append_drop]
      exact hmsorted
    exact (List.pairwise_append.mp hp).2.2 m1 h1 m2 h2
  have hkeymap : ((sortMetasDesc ((ls.filter (fun kv => isCacheLsKey kv.1)).map lsMetaOf)).map
      LsMeta.key).Perm ((ls.filter (fun kv => isCacheLsKey kv.1)).map Prod.fst) := by
    have h1 := hm.map LsMeta.key
    rw [List.map_map] at h1
    have h2 : (ls.filter (fun kv => isCacheLsKey kv.1)).map (LsMeta.key ∘ lsMetaOf) =
        (ls.filter (fun kv => isCacheLsKey kv.1)).map Prod.fst := by
      apply List.map_congr_left
      intro kv _
      exact lsMetaOf_key kv
    rw [h2] at h1
    exact h1
  by_cases hemp :
      (sortMetasDesc ((ls.filter (fun kv => isCacheLsKey kv.1)).map lsMetaOf)).isEmpty = true
  · have hmnil : sortMetasDesc ((ls.filter (fun kv => isCacheLsKey kv.1)).map lsMetaOf) = [] :=
      List.isEmpty_iff.mp hemp
    have hplnil : ls.filter (fun kv => isCacheLsKey kv.1) = [] := by
      have h0 := hm.length_eq
      rw [hmnil] at h0
      simp only [List.length_nil, List.length_map] at h0
      exact List.length_eq_zero.mp h0.symm
    have hswp : lsSweepLS ls = ls := by
      simp only [lsSweepLS]
      rw [if_pos hemp]
    refine ⟨by rw [hswp], ?_, ?_, hdom⟩
    · rw [hswp, hplnil]
      exact List.Perm.refl _
    · rw [hswp, hplnil]
      simp
  · by_cases h5 :
        (sortMetasDesc ((ls.filter (fun kv => isCacheLsKey kv.1)).map lsMetaOf)).length > 5
    · have hswp : lsSweepLS ls =
          ls.filter (fun kv =>
            !(((sortMetasDesc ((ls.filter (fun kv2 => isCacheLsKey kv2.1)).map lsMetaOf)).drop
                5).any (fun m => m.key == kv.1))) := by
        simp only [lsSweepLS]
        rw [if_neg hemp, if_pos h5, foldl_lsRemove]
      have hmk : ∀ m ∈ sortMetasDesc ((ls.filter (fun kv => isCacheLsKey kv.1)).map lsMetaOf),
          isCacheLsKey m.key = true := by
        intro m hmm
        have h1 : m ∈ (ls.filter (fun kv => isCacheLsKey kv.1)).map lsMetaOf := hm.mem_iff.mp hmm
        obtain ⟨kv, hkv, hkveq⟩ := List.mem_map.mp h1
        have hkvP := (List.mem_filter.mp hkv).2
        rw [← hkveq, lsMetaOf_key]
        exact hkvP
      have hswap : ls.filter (fun kv => isCacheLsKey kv.1 &&
            !(((sortMetasDesc ((ls.filter (fun kv2 => isCacheLsKey kv2.1)).map lsMetaOf)).drop
                5).any (fun m => m.key == kv.1))) =
          (ls.filter (fun kv => isCacheLsKey kv.1)).filter (fun kv =>
            !(((sortMetasDesc ((ls.filter (fun kv2 => isCacheLsKey kv2.1)).map lsMetaOf)).drop
                5).any (fun m => m.key == kv.1))) := by
        rw [List.filter_filter]
        have hfun : (fun kv : String × Blob =>
              !(((sortMetasDesc ((ls.filter (fun kv2 => isCacheLsKey kv2.1)).map lsMetaOf)).drop
                  5).any (fun m => m.key == kv.1)) && isCacheLsKey kv.1) =
            (fun kv : String × Blob => isCacheLsKey kv.1 &&
              !(((sortMetasDesc ((ls.filter (fun kv2 => isCacheLsKey kv2.1)).map lsMetaOf)).drop
                  5).any (fun m => m.key == kv.1))) := by
          funext kv
          rw [Bool.and_comm]
        rw [hfun]
      have hker : (((ls.filter (fun kv => isCacheLsKey kv.1)).map Prod.fst).filter
            (fun r => !((((sortMetasDesc ((ls.filter (fun kv => isCacheLsKey kv.1)).map
              lsMetaOf)).map LsMeta.key).drop 5).any (fun q => q == r)))).Perm
          (((sortMetasDesc ((ls.filter (fun kv => isCacheLsKey kv.1)).map lsMetaOf)).map
            LsMeta.key).take 5) :=
        filter_str_drop_perm _ _ 5 hkeymap hplnodup
      have hpredeq : (fun r : String =>
            !((((sortMetasDesc ((ls.filter (fun kv => isCacheLsKey kv.1)).map lsMetaOf)).map
                LsMeta.key).drop 5).any (fun q => q == r))) =
          (fun k : String =>
            !(((sortMetasDesc ((ls.filter (fun kv2 => isCacheLsKey kv2.1)).map lsMetaOf)).drop
                5).any (fun m => m.key == k))) := by
        funext r
        rw [← List.map_drop, any_map_general]
      rw [hpredeq, ← List.map_take] at hker
      have hpermMain : ((ls.filter (fun kv => isCacheLsKey kv.1 &&
            !(((sortMetasDesc ((ls.filter (fun kv2 => isCacheLsKey kv2.1)).map lsMetaOf)).drop
                5).any (fun m => m.key == kv.1)))).map Prod.fst).Perm
          (((sortMetasDesc ((ls.filter (fun kv => isCacheLsKey kv.1)).map lsMetaOf)).take 5).map
            LsMeta.key) := by
        rw [hswap, map_fst_filter_anykey]
        exact hker
      refine ⟨?_, ?_, ?_, hdom⟩
      · rw [hswp, List.filter_filter]
        have hfun2 : (fun kv : String × Blob => !(isCacheLsKey kv.1) &&
              !(((sortMetasDesc ((ls.filter (fun kv2 => isCacheLsKey kv2.1)).map lsMetaOf)).drop
                  5).any (fun m => m.key == kv.1))) =
            (fun kv : String × Blob => !(isCacheLsKey kv.1)) := by
          funext kv
          by_cases hP : isCacheLsKey kv.1 = true
          · simp [hP]
          · have hPf : isCacheLsKey kv.1 = false := Bool.eq_false_iff.mpr hP
            have hdel : ((sortMetasDesc ((ls.filter (fun kv2 => isCacheLsKey kv2.1)).map
                lsMetaOf)).drop 5).any (fun m => m.key == kv.1) = false := by
              rw [List.any_eq_false]
              intro m hm5 hbeq
              have hmkey : m.key = kv.1 := by simpa using hbeq
              have hpref := hmk m (List.drop_subset 5 _ hm5)
              rw [hmkey, hPf] at hpref
              exact Bool.false_ne_true hpref
            simp [hPf, hdel]
        rw [hfun2]
      · rw [hswp, List.filter_filter]
        exact hpermMain
      · rw [hswp, List.filter_filter]
        have hlen2 := hpermMain.length_eq
        rw [List.length_map, List.length_map, List.length_take] at hlen2
        rw [hlen2]
        have hml : (sortMetasDesc ((ls.filter (fun kv => isCacheLsKey kv.1)).map
            lsMetaOf)).length = (ls.filter (fun kv => isCacheLsKey kv.1)).length := by
          rw [hm.length_eq, List.length_map]
        rw [hml]
    · have h5b :
          (sortMetasDesc ((ls.filter (fun kv => isCacheLsKey kv.1)).map lsMetaOf)).length ≤ 5 :=
        Nat.le_of_not_lt h5
      have hswp : lsSweepLS ls = ls := by
        simp only [lsSweepLS]
        rw [if_neg hemp, if_neg h5]
      have hlenpl : (ls.filter (fun kv => isCacheLsKey kv.1)).length ≤ 5 := by
        have h0 := hm.length_eq
        rw [List.length_map] at h0
        omega
      have htk : (sortMetasDesc ((ls.filter (fun kv => isCacheLsKey kv.1)).map lsMetaOf)).take 5 =
          sortMetasDesc ((ls.filter (fun kv => isCacheLsKey kv.1)).map lsMetaOf) :=
        List.take_of_length_le h5b
      refine ⟨by rw [hswp], ?_, ?_, hdom⟩
      · rw [hswp, htk]
        exact hkeymap.symm
      · rw [hswp]
        have hmin : min 5 (ls.filter (fun kv => isCacheLsKey kv.1)).length =
            (ls.filter (fun kv => isCacheLsKey kv.1)).length := by omega
        rw [hmin]

end SymbolicProofs

/-- Claim C2, counterexample: a record persisted with a payload that has
no list field is served as a hit by the lookup (not reported as a miss),
and it is still present in the store afterwards. -/
theorem corruption_c2_counterexample :
    (getCachedConversations Env.clean 200 stC2 "a" (DateLike.str "2024-01-01")).1 =
        some (Data.obj none []) ∧
      idbFind (getCachedConversations Env.clean 200 stC2 "a"
          (DateLike.str "2024-01-01")).2.1.idb "a_2024-01-01" = some recNoList := by
  decide

/-- Claim C3, counterexample: with the structured tier open but missing
the key, the lookup reports absent without attempting the flat tier,
even though the flat tier holds a fresh valid record for the key whose
flat-tier lookup would be a hit. -/
theorem fallback_c3_counterexample :
    (getCachedConversations Env.clean 200 stC3 "a" (DateLike.str "2024-01-01")).1 =
        none ∧
      (lookupLocalStorage 200 stC3 "a_2024-01-01").1 =
        some (Data.obj (some ["x"]) []) := by
  decide

/-- Witness for the amended C3: at `stC3` (open handle, key missing from
the structured store, fresh record in the flat tier) the lookup is
`(none, stC3, [idbGet])`. -/
theorem fallback_c3_amended_witness :
    getCachedConversations Env.clean 200 stC3 "a" (DateLike.str "2024-01-01") =
      (none, stC3, [Event.idbGet]) :=
  (fallback_c3_amended Env.clean 200 stC3 "a" (DateLike.str "2024-01-01")).2.2.1
    rfl rfl rfl (by decide)

set_option maxHeartbeats 2000000 in
/-- Claim C5, counterexample: at `stC5` the first open attempt fails and
the lookup is served from the flat tier, but the very next lookup
re-attempts the open, succeeds, and is served from the structured tier
(its trace contains an open attempt and a structured get) — a failed
open does not permanently select the fallback path. -/
theorem unavailability_c5_counterexample :
    (getCachedConversations Env.clean 200 stC5 "a" (DateLike.str "2024-01-01")).1 =
        none ∧
      (getCachedConversations Env.clean 201
          (getCachedConversations Env.clean 200 stC5 "a"
            (DateLike.str "2024-01-01")).2.1 "a" (DateLike.str "2024-01-01")).1 =
        some (Data.obj (some ["x"]) []) ∧
      (getCachedConversations Env.clean 201
          (getCachedConversations Env.clean 200 stC5 "a"
            (DateLike.str "2024-01-01")).2.1 "a" (DateLike.str "2024-01-01")).2.2 =
        [Event.openAttempt, Event.idbGet] := by
  decide

set_option maxHeartbeats 2000000 in
/-- Witness for the amended C5: the flat-only part at an unsupported
platform state, and the failed-open-then-retry part at `stC5`. -/
theorem unavailability_c5_amended_witness :
    ((getCachedConversations Env.clean 200
          { available := false, handleCached := false, idb := [], ls := [],
            openResults := [], putResults := [] } "a"
          (DateLike.str "2024-01-01")).2.2.all (fun e => !e.isStructured) = true ∧
        (cacheConversations Env.clean 200
          { available := false, handleCached := false, idb := [], ls := [],
            openResults := [], putResults := [] } "a" (DateLike.str "2024-01-01")
          (Data.obj (some ["x"]) [])).2.2.all (fun e => !e.isStructured) = true) ∧
      (getConversationCacheDB stC5 =
          (false, { stC5 with openResults := [true] }, [Event.openAttempt]) ∧
        ([true] = [] →
          getConversationCacheDB { stC5 with openResults := [true] } =
            (true, { stC5 with handleCached := true, openResults := [] },
              [Event.openAttempt]))) :=
  ⟨(unavailability_c5_amended Env.clean 200
      { available := false, handleCached := false, idb := [], ls := [],
        openResults := [], putResults := [] } "a" (DateLike.str "2024-01-01")
      (Data.obj (some ["x"]) [])).1 rfl,
    (unavailability_c5_amended Env.clean 200 stC5 "a" (DateLike.str "2024-01-01")
      (Data.obj (some ["x"]) [])).2.2 [true] rfl rfl rfl⟩

/-- Witness for the amended C2, structured tier: a record with a null
payload under an open handle is a miss and is purged. -/
theorem corruption_c2_amended_witness :
    (getCachedConversations Env.clean 200
        { available := true, handleCached := true,
          idb := [{ recNoList with data := Data.null }], ls := [],
          openResults := [], putResults := [] } "a" (DateLike.str "2024-01-01")).1 =
        none ∧
      idbFind (getCachedConversations Env.clean 200
        { available := true, handleCached := true,
          idb := [{ recNoList with data := Data.null }], ls := [],
          openResults := [], putResults := [] } "a"
          (DateLike.str "2024-01-01")).2.1.idb "a_2024-01-01" = none :=
  (corruption_c2_amended 200
    { available := true, handleCached := true,
      idb := [{ recNoList with data := Data.null }], ls := [],
      openResults := [], putResults := [] } "a" (DateLike.str "2024-01-01")
    { recNoList with data := Data.null }).1 rfl rfl (by decide) rfl



set_option maxRecDepth 100000 in
set_option maxHeartbeats 2000000 in
/-- Claim C4, counterexample: at `stC4` (structured handle open, six old
flat-tier entries, first `setItem` quota-exceeded, retry succeeding) the
quota recovery sweeps the structured tier and retries — but the
flat-tier eviction sweep does not run: all six old flat entries survive
alongside the new one (the flat sweep would have kept only the newest
five before the retry). -/
theorem quota_retry_c4_counterexample :
    (cacheToLocalStorage stC4 "a_2024-02-01" recNew).1 = true ∧
      (cacheToLocalStorage stC4 "a_2024-02-01" recNew).2.1.ls.length = 7 ∧
      (lsGet (cacheToLocalStorage stC4 "a_2024-02-01" recNew).2.1.ls
          (LS_KEY_HEAD ++ "a_2024-01-01")).isSome = true ∧
      (cacheToLocalStorage stC4 "a_2024-02-01" recNew).2.2 =
        [Event.lsSet, Event.idbSweep, Event.lsSet] := by
  decide

set_option maxRecDepth 100000 in
set_option maxHeartbeats 2000000 in
/-- Witness for the amended C4: in a flat-only session with outcomes
`[quota, other]`, the write sweeps the flat tier, retries once, and the
second (non-quota) failure is final. -/
theorem quota_retry_c4_amended_witness :
    stC4b.available = false ∧
      cacheToLocalStorage stC4b "a_2024-02-01" recNew =
        ((PutOutcome.other == PutOutcome.ok),
          if PutOutcome.other == PutOutcome.ok then
            { stC4b with
                putResults := []
                ls := lsSet (lsSweepLS stC4b.ls)
                  (LS_KEY_HEAD ++ "a_2024-02-01") (Blob.record recNew) }
          else { stC4b with putResults := [], ls := lsSweepLS stC4b.ls },
          [Event.lsSet, Event.lsSweep, Event.lsSet]) :=
  ⟨by decide,
    (quota_retry_c4_amended stC4b "a_2024-02-01" recNew PutOutcome.other []
      (by decide) rfl).1 (by decide)⟩

/-- The serialized form of `recBig` exceeds the 2 MiB ceiling. -/
theorem recBig_oversize : recBig.stringify.length > 2 * 1024 * 1024 := by
  have hb : bigItem.length = 2100000 := by
    have h1 : bigItem.length = (List.replicate 2100000 'a').length := rfl
    rw [h1, List.length_replicate]
  simp only [recBig, CacheData.stringify, Data.stringify, joinComma, List.map_nil,
    String.length_append, hb]
  omega

set_option maxRecDepth 100000 in
set_option maxHeartbeats 2000000 in
/-- Witness for C9: the oversized record `recBig` is rejected with no
write attempt and no sweep, while a small record facing a generic
`setItem` failure does attempt the write. -/
theorem oversize_c9_witness :
    cacheToLocalStorage stC9 "a_2024-01-01" recBig = (false, stC9, []) ∧
      cacheToLocalStorage stC9 "a_2024-02-01" recNew =
        (false, { stC9 with putResults := [] }, [Event.lsSet]) :=
  ⟨(oversize_c9 stC9 "a_2024-01-01" recBig []).1 recBig_oversize,
    (oversize_c9 stC9 "a_2024-02-01" recNew []).2 (by decide) rfl⟩

set_option maxRecDepth 100000 in
set_option maxHeartbeats 2000000 in
/-- Witness for C1: a concrete round trip through the flat tier. -/
theorem roundtrip_c1_witness :
    (cacheConversations Env.clean 1000
        { available := false, handleCached := false, idb := [], ls := [],
          openResults := [], putResults := [] } "a" (DateLike.str "2024-03-05")
        (Data.obj (some ["x"]) [])).1 = true ∧
      (getCachedConversations Env.clean 1000
          (cacheConversations Env.clean 1000
            { available := false, handleCached := false, idb := [], ls := [],
              openResults := [], putResults := [] } "a" (DateLike.str "2024-03-05")
            (Data.obj (some ["x"]) [])).2.1 "a" (DateLike.str "2024-03-05")).1 =
        some (Data.obj (some ["x"]) []) :=
  roundtrip_c1 1000
    { available := false, handleCached := false, idb := [], ls := [],
      openResults := [], putResults := [] } "a" (DateLike.str "2024-03-05")
    ["x"] [] (by decide) (by decide) rfl rfl (by decide)

set_option maxRecDepth 100000 in
set_option maxHeartbeats 2000000 in
/-- Witness for C6: a concrete record written at time 1000 through the
flat tier: `expiresAt = timestamp + 24h`, hit at `T + 23h59m`, miss and
purge at `T + 24h01m`. -/
theorem expiry_c6_witness :
    (mkCacheData 1000 "a" (DateLike.str "2024-03-05")
        (Data.obj (some ["x"]) [])).expiresAt =
        (mkCacheData 1000 "a" (DateLike.str "2024-03-05")
          (Data.obj (some ["x"]) [])).timestamp + CACHE_EXPIRY_HOURS * 60 * 60 * 1000 ∧
      (getCachedConversations Env.clean (1000 + 86340000)
          (cacheConversations Env.clean 1000
            { available := false, handleCached := false, idb := [], ls := [],
              openResults := [], putResults := [] } "a" (DateLike.str "2024-03-05")
            (Data.obj (some ["x"]) [])).2.1 "a" (DateLike.str "2024-03-05")).1 =
        some (Data.obj (some ["x"]) []) ∧
      (getCachedConversations Env.clean (1000 + 86460000)
          (cacheConversations Env.clean 1000
            { available := false, handleCached := false, idb := [], ls := [],
              openResults := [], putResults := [] } "a" (DateLike.str "2024-03-05")
            (Data.obj (some ["x"]) [])).2.1 "a" (DateLike.str "2024-03-05")).1 = none ∧
      (({ available := false, handleCached := false, idb := [], ls := [],
          openResults := [], putResults := [] } : St).available = true →
        idbFind (getCachedConversations Env.clean (1000 + 86460000)
            (cacheConversations Env.clean 1000
              { available := false, handleCached := false, idb := [], ls := [],
                openResults := [], putResults := [] } "a" (DateLike.str "2024-03-05")
              (Data.obj (some ["x"]) [])).2.1 "a" (DateLike.str "2024-03-05")).2.1.idb
          (getConversationCacheKey "a" (DateLike.str "2024-03-05")) = none) ∧
      (({ available := false, handleCached := false, idb := [], ls := [],
          openResults := [], putResults := [] } : St).available = false →
        lsGet (getCachedConversations Env.clean (1000 + 86460000)
            (cacheConversations Env.clean 1000
              { available := false, handleCached := false, idb := [], ls := [],
                openResults := [], putResults := [] } "a" (DateLike.str "2024-03-05")
              (Data.obj (some ["x"]) [])).2.1 "a" (DateLike.str "2024-03-05")).2.1.ls
          (LS_KEY_HEAD ++ getConversationCacheKey "a" (DateLike.str "2024-03-05")) =
          none) :=
  expiry_c6 1000
    { available := false, handleCached := false, idb := [], ls := [],
      openResults := [], putResults := [] } "a" (DateLike.str "2024-03-05")
    ["x"] [] (by decide) (by decide) rfl rfl (by decide)

set_option maxRecDepth 100000 in
set_option maxHeartbeats 2000000 in
/-- Witness for C7: the sixty-record store has pairwise-distinct keys and
a cumulative serialized size under 500 MiB, and the sweep leaves exactly
the 50 newest records, each at least as recent as every evicted one. -/
theorem eviction_idb_c7_witness :
    (idb60.map CacheData.cacheKey).Nodup ∧
    ¬(((sortRecsDesc idb60).map (fun e => e.stringify.length)).sum > 500 * 1024 * 1024) ∧
    ((idbSweep idb60).Perm ((sortRecsDesc idb60).take 50) ∧
      (idbSweep idb60).length = min 50 idb60.length ∧
      ∀ r ∈ idbSweep idb60, ∀ q ∈ (sortRecsDesc idb60).drop 50, q.timestamp ≤ r.timestamp) :=
  ⟨by decide, by decide, (eviction_idb_c7 idb60 (by decide)).1 (by decide)⟩

set_option maxRecDepth 100000 in
set_option maxHeartbeats 2000000 in
/-- Witness for C8: the eight-entry flat store has pairwise-distinct
keys, and its sweep leaves exactly the keys of the 5 newest entries. -/
theorem eviction_ls_c8_witness :
    (ls8.map Prod.fst).Nodup ∧
    (((lsSweepLS ls8).filter (fun kv => isCacheLsKey kv.1)).map Prod.fst).Perm
        (((sortMetasDesc ((ls8.filter (fun kv => isCacheLsKey kv.1)).map lsMetaOf)).take 5).map
          LsMeta.key) ∧
    ((lsSweepLS ls8).filter (fun kv => isCacheLsKey kv.1)).length =
        min 5 (ls8.filter (fun kv => isCacheLsKey kv.1)).length :=
  ⟨by decide, (eviction_ls_c8 ls8 (by decide)).2.1, (eviction_ls_c8 ls8 (by decide)).2.2.1⟩

end ConvCache
